import Mathlib

/-!
# DHT11 temperature / humidity on an e-paper display (`src/main.c`)

A shallow embedding of `src/main.c`.  The program is a single-threaded loop
that samples a DHT11 sensor once per second and redraws two LVGL labels on an
e-paper display when the formatted reading changed.

* C strings are lists of bytes (`List Nat`); a `const char *` argument is
  the list of bytes before the terminating NUL, a `char[32]` array is the list
  of its bytes, read back with `readCStr`, which fails when the array holds
  no terminator (the C program would read past the array).
* Every call the program makes to LVGL, the display driver, the sensor driver,
  the logger and the kernel is recorded as an event `Ev`; calls of the
  program's own functions are recorded as `Ev.call_*` markers in front of the
  events of their bodies.
* The replies of the sensor driver are inputs: one `SensorReply` per loop
  iteration.
-/

namespace DhtEpaper

/-! ## C strings and the C library -/

/-- The bytes of a string literal. -/
def bytes (s : String) : List Nat := s.toList.map Char.toNat

/-- Read the C string stored in a `char` array: the bytes before the first
NUL.  An array without a NUL has no string in it (`none`). -/
def readCStr : List Nat → Option (List Nat)
  | [] => none
  | b :: rest => if b = 0 then some [] else (readCStr rest).map (b :: ·)

/-- `strlen` of a C string given by its bytes. -/
def strlen (s : List Nat) : Nat := s.length

/-- `strcmp` of two C strings given by their bytes: the difference of the
first pair of bytes that differ, the terminator counting as byte 0. -/
def strcmp : List Nat → List Nat → Int
  | [], [] => 0
  | [], b :: _ => 0 - (b : Int)
  | a :: _, [] => (a : Int)
  | a :: as, b :: bs => if a = b then strcmp as bs else (a : Int) - (b : Int)

/-- `strncpy(dst, src, n)`: the first `n` bytes of `dst` become the first
`n` bytes of `src`, padded with NULs when `src` is shorter than `n`; no
terminator is written when `src` has `n` bytes or more. -/
def strncpy (dst src : List Nat) (n : Nat) : List Nat :=
  src.take n ++ List.replicate (n - src.length) 0 ++ dst.drop n

/-- The digits of `n` in base 10 as ASCII bytes, most significant first,
produced by repeated division, in front of `acc`. -/
def utoa : Nat → Nat → List Nat → List Nat
  | 0, _, acc => acc
  | fuel + 1, n, acc =>
    if n / 10 = 0 then (48 + n % 10) :: acc
    else utoa fuel (n / 10) ((48 + n % 10) :: acc)

/-- The `%d` conversion of `printf`: an optional minus sign and the decimal
digits of the magnitude. -/
def fmt_d (v : Int) : List Nat :=
  match v with
  | Int.ofNat n => utoa (n + 1) n []
  | Int.negSucc n => 45 :: utoa (n + 2) (n + 1) []

/-- The output of `printf` for the two conversions the program uses: `%d`
consumes an `int` argument, `%%` prints one percent sign, any other byte is
copied. -/
def vformat : List Nat → List Int → List Nat
  | [], _ => []
  | 37 :: 100 :: rest, a :: args => fmt_d a ++ vformat rest args
  | 37 :: 37 :: rest, args => 37 :: vformat rest args
  | c :: rest, args => c :: vformat rest args

/-- `snprintf(buf, size, fmt, ...)`: the bytes written to `buf`, namely
at most `size - 1` bytes of the output followed by a NUL. -/
def snprintf (size : Nat) (fmt : List Nat) (args : List Int) : List Nat :=
  if size = 0 then [] else (vformat fmt args).take (size - 1) ++ [0]

/-- Smallest value of a 32-bit `int`. -/
def INT_MIN : Int := -2147483648

/-- Largest value of a 32-bit `int`. -/
def INT_MAX : Int := 2147483647

/-- The value fits a 32-bit signed `int` (the type of `sensor_value.val1`). -/
def IsInt32 (v : Int) : Prop := INT_MIN ≤ v ∧ v ≤ INT_MAX

instance (v : Int) : Decidable (IsInt32 v) :=
  inferInstanceAs (Decidable (INT_MIN ≤ v ∧ v ≤ INT_MAX))

/-! ## Events -/

/-- The two text colours the program uses. -/
inductive Color
  | white
  | black
  deriving DecidableEq

/-- LVGL objects: the active screen and the labels, numbered in the order
`lv_label_create` returns them. -/
inductive Obj
  | scr
  | label (n : Nat)
  deriving DecidableEq

/-- The two devices of the board. -/
inductive Dev
  | epaper
  | dht
  deriving DecidableEq

/-- The sensor channels read. -/
inductive Chan
  | SENSOR_CHAN_AMBIENT_TEMP
  | SENSOR_CHAN_HUMIDITY
  deriving DecidableEq

/-- One call made by the program. -/
inductive Ev
  | call_initialize_devices
  | call_read_dht11
  | call_update_label (label : Obj) (prev_text text : List Nat)
  | call_update_temp_and_humidity_labels (temp humid : Obj) (new_temp new_humid : List Nat)
  | device_is_ready (d : Dev)
  | lv_init
  | lv_obj_clean (o : Obj)
  | lv_obj_set_style_bg_color (o : Obj) (c : Color)
  | lv_obj_set_style_bg_opa (o : Obj) (opa : Nat)
  | lv_label_create (parent result : Obj)
  | lv_obj_set_width (o : Obj) (w : Nat)
  | lv_obj_set_height (o : Obj) (h : Nat)
  | lv_label_set_long_mode (o : Obj)
  | lv_obj_set_style_text_color (o : Obj) (c : Color)
  | lv_obj_set_style_text_font (o : Obj) (size : Nat)
  | lv_obj_set_style_text_align (o : Obj)
  | lv_obj_align (o : Obj) (x y : Nat)
  | lv_obj_align_to (o base : Obj) (x y : Nat)
  | lv_label_set_text (o : Obj) (text : List Nat)
  | lv_obj_invalidate (o : Obj)
  | lv_refr_now
  | lv_timer_handler
  | display_blanking_off
  | sensor_sample_fetch (dev : Option Dev)
  | sensor_channel_get (dev : Option Dev) (chan : Chan)
  | LOG_ERR (msg : List Nat)
  | LOG_INF (fmt : List Nat) (arg : Int)
  | k_sleep (ms : Nat)
  deriving DecidableEq

/-- The calls that reach LVGL or the display driver. -/
def Ev.isDisplayOp : Ev → Bool
  | .lv_init => true
  | .lv_obj_clean _ => true
  | .lv_obj_set_style_bg_color _ _ => true
  | .lv_obj_set_style_bg_opa _ _ => true
  | .lv_label_create _ _ => true
  | .lv_obj_set_width _ _ => true
  | .lv_obj_set_height _ _ => true
  | .lv_label_set_long_mode _ => true
  | .lv_obj_set_style_text_color _ _ => true
  | .lv_obj_set_style_text_font _ _ => true
  | .lv_obj_set_style_text_align _ => true
  | .lv_obj_align _ _ _ => true
  | .lv_obj_align_to _ _ _ _ => true
  | .lv_label_set_text _ _ => true
  | .lv_obj_invalidate _ => true
  | .lv_refr_now => true
  | .lv_timer_handler => true
  | .display_blanking_off => true
  | _ => false

/-- The `update_label` calls of a trace. -/
def Ev.isUpdateLabelCall : Ev → Bool
  | .call_update_label _ _ _ => true
  | _ => false

/-- The `(prev_text, text)` arguments of the `update_label` calls made for
`label`, in order. -/
def redraws (label : Obj) : List Ev → List (List Nat × List Nat)
  | [] => []
  | .call_update_label l p t :: rest =>
    if l = label then (p, t) :: redraws label rest else redraws label rest
  | _ :: rest => redraws label rest

/-! ## What the labels show -/

/-- The text and the text colour of a label. -/
structure Widget where
  text : List Nat
  color : Color
  deriving DecidableEq

/-- The effect of one call on the labels: `lv_label_set_text` replaces the
text of its label, `lv_obj_set_style_text_color` its text colour; no other
call changes either. -/
def applyEv (scr : Obj → Widget) : Ev → Obj → Widget
  | .lv_label_set_text o t => fun x => if x = o then { scr x with text := t } else scr x
  | .lv_obj_set_style_text_color o c => fun x => if x = o then { scr x with color := c } else scr x
  | _ => scr

/-- The labels after a sequence of calls. -/
def screenAfter (scr : Obj → Widget) (evs : List Ev) : Obj → Widget :=
  evs.foldl applyEv scr

/-! ## The program -/

def NUM_TEXT_LABELS : Nat := 2

def NUM_DYNAMIC_LABELS : Nat := 2

/-- `LV_OPA_COVER`. -/
def LV_OPA_COVER : Nat := 255

/-- `LV_OPA_TRANSP`. -/
def LV_OPA_TRANSP : Nat := 0

/-- The file-scope variables of `main.c`, the two `static` arrays of
`update_temp_and_humidity_labels`, and the locals of `main` that live across
loop iterations. -/
structure State where
  epaper : Option Dev
  dht_dev : Option Dev
  temp_c : Int
  humidity : Int
  prev_temp : List Nat
  prev_humid : List Nat
  last_temp : Int
  last_humid : Int
  first_run : Bool
  deriving DecidableEq

/-- The state at program start: the devices unset, the readings 0 and the
two caches (`static char prev_temp[32] = ""`) all NUL. -/
def State.init : State :=
  { epaper := none, dht_dev := none, temp_c := 0, humidity := 0,
    prev_temp := List.replicate 32 0, prev_humid := List.replicate 32 0,
    last_temp := -1000, last_humid := -1000, first_run := true }

/-- What `device_is_ready` answers at boot for the two devices. -/
structure Boot where
  epaper_ready : Bool
  dht_ready : Bool
  deriving DecidableEq

/-- What the sensor driver answers during one `read_dht11` call: the return
code of `sensor_sample_fetch`, and the return code and `val1` of
`sensor_channel_get` for each channel. -/
structure SensorReply where
  fetch_rc : Int
  temp_rc : Int
  temp_val1 : Int
  humid_rc : Int
  humid_val1 : Int
  deriving DecidableEq

/-- A reply with every return code 0 and the given readings. -/
def SensorReply.ok (t h : Int) : SensorReply :=
  { fetch_rc := 0, temp_rc := 0, temp_val1 := t, humid_rc := 0, humid_val1 := h }

/-- A reply whose `sensor_sample_fetch` fails. -/
def SensorReply.fail : SensorReply :=
  { fetch_rc := -5, temp_rc := 0, temp_val1 := 0, humid_rc := 0, humid_val1 := 0 }

/-- Every return code of the reply is 0. -/
def SensorReply.succeeds (r : SensorReply) : Bool :=
  decide (r.fetch_rc = 0) && decide (r.temp_rc = 0) && decide (r.humid_rc = 0)

/-- The readings of the reply fit `int32_t`. -/
def SensorReply.InRange (r : SensorReply) : Prop :=
  IsInt32 r.temp_val1 ∧ IsInt32 r.humid_val1

instance (r : SensorReply) : Decidable r.InRange :=
  inferInstanceAs (Decidable (IsInt32 r.temp_val1 ∧ IsInt32 r.humid_val1))

/-- `initialize_devices` (lines 29-42). -/
def initialize_devices (s : State) (boot : Boot) : State × List Ev :=
  let s1 := { s with epaper := some Dev.epaper }
  if !boot.epaper_ready then
    (s1, [Ev.device_is_ready Dev.epaper, Ev.LOG_ERR (bytes "E-Paper display device not ready")])
  else
    let s2 := { s1 with dht_dev := some Dev.dht }
    if !boot.dht_ready then
      (s2, [Ev.device_is_ready Dev.epaper, Ev.device_is_ready Dev.dht,
            Ev.LOG_ERR (bytes "DHT device not ready")])
    else
      (s2, [Ev.device_is_ready Dev.epaper, Ev.device_is_ready Dev.dht])

/-- `read_dht11` (lines 44-62): the new state, the value returned and the
calls made.  The second `sensor_channel_get` is not called when the first one
fails. -/
def read_dht11 (s : State) (r : SensorReply) : State × Bool × List Ev :=
  if r.fetch_rc ≠ 0 then
    (s, false, [Ev.sensor_sample_fetch s.dht_dev,
                Ev.LOG_ERR (bytes "Failed to fetch temperature sample")])
  else if r.temp_rc ≠ 0 then
    (s, false, [Ev.sensor_sample_fetch s.dht_dev,
                Ev.sensor_channel_get s.dht_dev Chan.SENSOR_CHAN_AMBIENT_TEMP,
                Ev.LOG_ERR (bytes "Failed to fetch temperature or humidity sample")])
  else if r.humid_rc ≠ 0 then
    (s, false, [Ev.sensor_sample_fetch s.dht_dev,
                Ev.sensor_channel_get s.dht_dev Chan.SENSOR_CHAN_AMBIENT_TEMP,
                Ev.sensor_channel_get s.dht_dev Chan.SENSOR_CHAN_HUMIDITY,
                Ev.LOG_ERR (bytes "Failed to fetch temperature or humidity sample")])
  else
    ({ s with temp_c := r.temp_val1, humidity := r.humid_val1 }, true,
     [Ev.sensor_sample_fetch s.dht_dev,
      Ev.sensor_channel_get s.dht_dev Chan.SENSOR_CHAN_AMBIENT_TEMP,
      Ev.sensor_channel_get s.dht_dev Chan.SENSOR_CHAN_HUMIDITY])

/-- `update_label` (lines 64-77). -/
def update_label (label : Obj) (prev_text text : List Nat) : List Ev :=
  (if strlen prev_text > 0 then
    [Ev.lv_label_set_text label prev_text,
     Ev.lv_obj_set_style_text_color label Color.white,
     Ev.lv_obj_invalidate label,
     Ev.lv_refr_now]
   else []) ++
  [Ev.lv_label_set_text label text,
   Ev.lv_obj_set_style_text_color label Color.black,
   Ev.lv_obj_invalidate label,
   Ev.lv_refr_now]

/-- `update_temp_and_humidity_labels` (lines 79-93).  `none` when a cache
array holds no terminator, where `strcmp` would read past it. -/
def update_temp_and_humidity_labels (s : State) (temp humid : Obj)
    (new_temp new_humid : List Nat) : Option (State × List Ev) :=
  match readCStr s.prev_temp with
  | none => none
  | some prev_temp =>
    let (s1, ev1) :=
      if strcmp prev_temp new_temp ≠ 0 then
        ({ s with prev_temp := strncpy s.prev_temp new_temp 32 },
         Ev.call_update_label temp prev_temp new_temp :: update_label temp prev_temp new_temp)
      else (s, [])
    match readCStr s1.prev_humid with
    | none => none
    | some prev_humid =>
      let (s2, ev2) :=
        if strcmp prev_humid new_humid ≠ 0 then
          ({ s1 with prev_humid := strncpy s1.prev_humid new_humid 32 },
           Ev.call_update_label humid prev_humid new_humid ::
             update_label humid prev_humid new_humid)
        else (s1, [])
      some (s2, ev1 ++ ev2)

/-- The label `text_labels[i]`. -/
def text_labels (i : Nat) : Obj := Obj.label i

/-- The label `dynamic_labels[i]`, created after the text labels. -/
def dynamic_labels (i : Nat) : Obj := Obj.label (NUM_TEXT_LABELS + i)

/-- The label `temp_num_text_label`. -/
def temp_num_text_label : Obj := dynamic_labels 0

/-- The label `humidity_num_text_label`. -/
def humidity_num_text_label : Obj := dynamic_labels 1

/-- The calls of `main` before the loop (lines 98-155). -/
def main_setup (boot : Boot) : State × List Ev :=
  let (s, ev0) := initialize_devices State.init boot
  (s,
   Ev.call_initialize_devices :: ev0 ++
   [Ev.lv_init,
    Ev.lv_obj_clean Obj.scr,
    Ev.lv_obj_set_style_bg_color Obj.scr Color.white,
    Ev.lv_obj_set_style_bg_opa Obj.scr LV_OPA_COVER] ++
   (List.range NUM_TEXT_LABELS).flatMap (fun i =>
     [Ev.lv_label_create Obj.scr (text_labels i),
      Ev.lv_obj_set_style_bg_color (text_labels i) Color.white,
      Ev.lv_obj_set_style_bg_opa (text_labels i) LV_OPA_TRANSP,
      Ev.lv_obj_set_width (text_labels i) 65,
      Ev.lv_obj_set_height (text_labels i) 20,
      Ev.lv_label_set_long_mode (text_labels i),
      Ev.lv_obj_set_style_text_color (text_labels i) Color.black,
      Ev.lv_obj_set_style_text_font (text_labels i) 18,
      Ev.lv_obj_set_style_text_align (text_labels i),
      Ev.lv_obj_align (text_labels i) 10 (10 + i * 30)]) ++
   (List.range NUM_DYNAMIC_LABELS).flatMap (fun i =>
     [Ev.lv_label_create Obj.scr (dynamic_labels i),
      Ev.lv_obj_set_style_bg_color (dynamic_labels i) Color.white,
      Ev.lv_obj_set_style_bg_opa (dynamic_labels i) LV_OPA_TRANSP,
      Ev.lv_obj_set_width (dynamic_labels i) 50,
      Ev.lv_obj_set_height (dynamic_labels i) 20,
      Ev.lv_label_set_long_mode (dynamic_labels i),
      Ev.lv_obj_set_style_text_color (dynamic_labels i) Color.black,
      Ev.lv_obj_set_style_text_font (dynamic_labels i) 18,
      Ev.lv_obj_set_style_text_align (dynamic_labels i),
      Ev.lv_obj_align_to (dynamic_labels i) (text_labels i) 10 0]) ++
   [Ev.lv_label_set_text (text_labels 0) (bytes "Temp: "),
    Ev.lv_label_set_text (text_labels 1) (bytes "Humid: "),
    Ev.lv_label_set_text temp_num_text_label (bytes "00"),
    Ev.lv_label_set_text humidity_num_text_label (bytes "00"),
    Ev.lv_timer_handler,
    Ev.display_blanking_off])

/-- The `first_run` block at the head of the loop body (lines 163-167). -/
def first_draw (s : State) : State × List Ev :=
  if s.first_run then
    ({ s with first_run := false }, [Ev.lv_timer_handler, Ev.lv_refr_now])
  else (s, [])

/-- The string in `temp_str` after `snprintf(temp_str, sizeof(temp_str), "%d C", temp_c)`
(lines 170, 172). -/
def temp_str (temp_c : Int) : Option (List Nat) :=
  readCStr (snprintf 32 (bytes "%d C") [temp_c])

/-- The string in `humid_str` after
`snprintf(humid_str, sizeof(humid_str), "%d %%", humidity)` (lines 171, 173). -/
def humid_str (humidity : Int) : Option (List Nat) :=
  readCStr (snprintf 32 (bytes "%d %%") [humidity])

/-- The rest of the loop body (lines 169-184): read the sensor, on success
format both texts and update the labels, then log and sleep. -/
def poll (s : State) (r : SensorReply) : Option (State × List Ev) :=
  let (s1, ok, ev1) := read_dht11 s r
  let upd : Option (State × List Ev) :=
    if ok then
      match temp_str s1.temp_c, humid_str s1.humidity with
      | some new_temp, some new_humid =>
        match update_temp_and_humidity_labels s1 temp_num_text_label
                humidity_num_text_label new_temp new_humid with
        | none => none
        | some (s2, ev2) =>
          some (s2, Ev.call_update_temp_and_humidity_labels temp_num_text_label
                      humidity_num_text_label new_temp new_humid :: ev2)
      | _, _ => none
    else some (s1, [])
  match upd with
  | none => none
  | some (s2, ev2) =>
    let s3 := { s2 with last_temp := s2.temp_c, last_humid := s2.humidity }
    some (s3, Ev.call_read_dht11 :: ev1 ++ ev2 ++
      [Ev.LOG_INF (bytes "Temperature: %d C") s3.last_temp,
       Ev.LOG_INF (bytes "Humidity: %d %%") s3.last_humid,
       Ev.k_sleep 1000])

/-- One iteration of `while (1)` (lines 162-185). -/
def loop_body (s : State) (r : SensorReply) : Option (State × List Ev) :=
  let (s1, ev1) := first_draw s
  match poll s1 r with
  | none => none
  | some (s2, ev2) => some (s2, ev1 ++ ev2)

/-- The loop run for one iteration per sensor reply: the final state and the
calls of each iteration. -/
def loop (s : State) : List SensorReply → Option (State × List (List Ev))
  | [] => some (s, [])
  | r :: rs =>
    match loop_body s r with
    | none => none
    | some (s1, ev) =>
      match loop s1 rs with
      | none => none
      | some (s2, evs) => some (s2, ev :: evs)

/-- The calls of `main` (lines 95-188) up to the end of the iteration that
consumes the last sensor reply. -/
def main (boot : Boot) (replies : List SensorReply) : Option (List Ev) :=
  let (s, ev0) := main_setup boot
  match loop s replies with
  | none => none
  | some (_, evs) => some (ev0 ++ evs.flatten)

/-! ## Definitions used to state and prove the properties -/

/-- The number a list of ASCII digits denotes. -/
def digitsVal (l : List Nat) : Nat := l.foldl (fun a d => 10 * a + (d - 48)) 0

/-- The text `snprintf` leaves in `temp_str`: the output cut to 31 bytes. -/
def tempText (t : Int) : List Nat := (fmt_d t ++ bytes " C").take 31

/-- The text `snprintf` leaves in `humid_str`: the output cut to 31 bytes. -/
def humidText (h : Int) : List Nat := (fmt_d h ++ bytes " %").take 31

/-- The calls made for one field whose cache holds `a` when the candidate
text is `b`. -/
def fieldEvs (label : Obj) (a b : List Nat) : List Ev :=
  if a = b then [] else Ev.call_update_label label a b :: update_label label a b

/-- The cache array of one field after the call. -/
def fieldCache (buf a b : List Nat) : List Nat :=
  if a = b then buf else strncpy buf b 32

/-- The calls that reach neither LVGL nor the display driver and are not an
`update_label` call: sensor, logger, kernel and the other call markers. -/
def Ev.isQuiet : Ev → Bool
  | .call_initialize_devices => true
  | .call_read_dht11 => true
  | .call_update_temp_and_humidity_labels _ _ _ _ => true
  | .device_is_ready _ => true
  | .sensor_sample_fetch _ => true
  | .sensor_channel_get _ _ => true
  | .LOG_ERR _ => true
  | .LOG_INF _ _ => true
  | .k_sleep _ => true
  | _ => false

/-- The calls of `update_temp_and_humidity_labels` in one iteration whose
caches hold `a` and `c`. -/
def updEvs (r : SensorReply) (a c : List Nat) : List Ev :=
  if r.succeeds then
    Ev.call_update_temp_and_humidity_labels temp_num_text_label humidity_num_text_label
      (tempText r.temp_val1) (humidText r.humid_val1) ::
    (fieldEvs temp_num_text_label a (tempText r.temp_val1) ++
     fieldEvs humidity_num_text_label c (humidText r.humid_val1))
  else []

/-- The two log records and the sleep that end an iteration. -/
def tailEvs (s : State) : List Ev :=
  [Ev.LOG_INF (bytes "Temperature: %d C") s.last_temp,
   Ev.LOG_INF (bytes "Humidity: %d %%") s.last_humid,
   Ev.k_sleep 1000]

/-- One phase of a redraw in the words of the specification: paint the text
in the colour, mark the label dirty, force a refresh. -/
def spec_paint_phase (label : Obj) (text : List Nat) (color : Color) : List Ev :=
  [Ev.lv_label_set_text label text,
   Ev.lv_obj_set_style_text_color label color,
   Ev.lv_obj_invalidate label,
   Ev.lv_refr_now]

/-- The text in the temperature cache after an iteration that found `a`
there. -/
def nextTemp (a : List Nat) (r : SensorReply) : List Nat :=
  if r.succeeds then tempText r.temp_val1 else a

/-- The text in the humidity cache after an iteration that found `c`
there. -/
def nextHumid (c : List Nat) (r : SensorReply) : List Nat :=
  if r.succeeds then humidText r.humid_val1 else c

/-- The calls of one iteration: the first draw in the first iteration, the
sensor read, the label update, the log records and the sleep. -/
def TickShape (first : Bool) (r : SensorReply) (a c : List Nat) (ev : List Ev) : Prop :=
  ∃ q1 q2, (∀ e ∈ q1, e.isQuiet = true) ∧ (∀ e ∈ q2, e.isQuiet = true) ∧
    ev = (if first then [Ev.lv_timer_handler, Ev.lv_refr_now] else []) ++
      (Ev.call_read_dht11 :: q1 ++ updEvs r a c ++ q2)

/-- The calls of a run of iterations, iteration by iteration. -/
def LoopShape : Bool → List Nat → List Nat → List SensorReply → List (List Ev) → Prop
  | _, _, _, [], evs => evs = []
  | first, a, c, r :: rs, evs =>
    ∃ ev rest, evs = ev :: rest ∧ TickShape first r a c ev ∧
      LoopShape false (nextTemp a r) (nextHumid c r) rs rest

/-- The readings of the most recent successful reply of a list, if any. -/
def lastOk : List SensorReply → Option (Int × Int)
  | [] => none
  | r :: rs =>
    match lastOk rs with
    | some v => some v
    | none => if r.succeeds then some (r.temp_val1, r.humid_val1) else none

/-- The redraws the specification expects of one field in one tick: none
when the tick fails; on a successful tick with value `v`, a redraw from the
empty text when no earlier tick succeeded, a redraw from the text of the most
recent earlier successful value `p` when `v` differs from it, none when
`v = p`. -/
def spec_redraw (fmt : Int → List Nat) (prev : Option Int) (ok : Bool) (v : Int) :
    List (List Nat × List Nat) :=
  if ok then
    match prev with
    | none => [([], fmt v)]
    | some p => if v = p then [] else [(fmt p, fmt v)]
  else []

/-- The scenario `(20,45), (20,45), (21,45), (21,50)` of the specification. -/
def scenario_steady : List SensorReply :=
  [SensorReply.ok 20 45, SensorReply.ok 20 45, SensorReply.ok 21 45, SensorReply.ok 21 50]

/-- The scenario `(20,45), FAIL, (22,45)` of the specification. -/
def scenario_failure : List SensorReply :=
  [SensorReply.ok 20 45, SensorReply.fail, SensorReply.ok 22 45]

/-- The redraws of a label in each iteration of a run of `main`. -/
def redrawsPerTick (label : Obj) (boot : Boot) (replies : List SensorReply) :
    Option (List (List (List Nat × List Nat))) :=
  (loop (main_setup boot).1 replies).map (fun p => p.2.map (redraws label))

/-- The calls that can occur in the loop after the first draw: the quiet
ones, the `update_label` marker and the four LVGL calls of `update_label`. -/
def Ev.isLoopEv : Ev → Bool
  | .call_update_label _ _ _ => true
  | .lv_label_set_text _ _ => true
  | .lv_obj_set_style_text_color _ _ => true
  | .lv_obj_invalidate _ => true
  | .lv_refr_now => true
  | e => e.isQuiet

/-- The calls of `main` before its last two calls ahead of the loop. -/
def setupPre (boot : Boot) : List Ev :=
  (main_setup boot).2.take ((main_setup boot).2.length - 2)

/-- A label whose cache holds a non-empty text shows that text in black. -/
def Shown (scr : Obj → Widget) (a c : List Nat) : Prop :=
  (a ≠ [] → scr temp_num_text_label = { text := a, color := Color.black }) ∧
  (c ≠ [] → scr humidity_num_text_label = { text := c, color := Color.black })

/-- No label has the text `00` and the text colour white. -/
def NoGhost00 (scr : Obj → Widget) : Prop :=
  ∀ o, ¬ ((scr o).text = bytes "00" ∧ (scr o).color = Color.white)

/-- `NoGhost00` holds before the trace and after each of its calls. -/
def SafeTrace (scr : Obj → Widget) : List Ev → Prop
  | [] => NoGhost00 scr
  | e :: es => NoGhost00 scr ∧ SafeTrace (applyEv scr e) es

/-- The calls that change neither text nor colour of a label. -/
def Ev.isInert : Ev → Bool
  | .lv_label_set_text _ _ => false
  | .lv_obj_set_style_text_color _ _ => false
  | _ => true

/-- A check of a trace that never sets a white text colour: every
`lv_label_set_text` has a text other than `00` or a label in `known`, the
labels whose text colour was set to black earlier in the trace. -/
def blackOnlyCheck (known : List Obj) : List Ev → Bool
  | [] => true
  | .lv_obj_set_style_text_color o c :: es =>
    decide (c = Color.black) && blackOnlyCheck (o :: known) es
  | .lv_label_set_text o t :: es =>
    (decide (t ≠ bytes "00") || decide (o ∈ known)) && blackOnlyCheck known es
  | _ :: es => blackOnlyCheck known es

/-! ## C string lemmas -/

theorem strcmp_self (a : List Nat) : strcmp a a = 0 := by
  induction a with
  | nil => rfl
  | cons x xs ih => simp [strcmp, ih]

theorem strcmp_eq_zero_iff (a b : List Nat) (ha : 0 ∉ a) (hb : 0 ∉ b) :
    strcmp a b = 0 ↔ a = b := by
  induction a generalizing b with
  | nil =>
    cases b with
    | nil => simp [strcmp]
    | cons y ys =>
      have hy : y ≠ 0 := fun h => hb (by simp [h])
      simp [strcmp]; omega
  | cons x xs ih =>
    have hx : x ≠ 0 := fun h => ha (by simp [h])
    have hxs : 0 ∉ xs := fun h => ha (by simp [h])
    cases b with
    | nil => simp [strcmp]; omega
    | cons y ys =>
      have hys : 0 ∉ ys := fun h => hb (by simp [h])
      by_cases hxy : x = y
      · subst hxy
        simp [strcmp, ih ys hxs hys]
      · simp [strcmp, hxy]; omega

theorem readCStr_append_zero (s rest : List Nat) (hs : 0 ∉ s) :
    readCStr (s ++ 0 :: rest) = some s := by
  induction s with
  | nil => simp [readCStr]
  | cons x xs ih =>
    have hx : x ≠ 0 := fun h => hs (by simp [h])
    have hxs : 0 ∉ xs := fun h => hs (by simp [h])
    simp [readCStr, hx, ih hxs]

theorem readCStr_noNul (buf s : List Nat) (h : readCStr buf = some s) : 0 ∉ s := by
  induction buf generalizing s with
  | nil => simp [readCStr] at h
  | cons x xs ih =>
    by_cases hx : x = 0
    · simp [readCStr, hx] at h; subst h; simp
    · simp only [readCStr, hx, if_false] at h
      cases hr : readCStr xs with
      | none => simp [hr] at h
      | some t =>
        simp [hr] at h; subst h
        have := ih t hr
        simp [this]; omega

theorem readCStr_strncpy (dst s : List Nat) (hs : 0 ∉ s) (hl : s.length < 32) :
    readCStr (strncpy dst s 32) = some s := by
  unfold strncpy
  have h1 : List.take 32 s = s := List.take_of_length_le (by omega)
  obtain ⟨k, hk⟩ : ∃ k, 32 - s.length = k + 1 := ⟨31 - s.length, by omega⟩
  rw [h1, hk, List.replicate_succ, List.append_assoc, List.cons_append]
  exact readCStr_append_zero s _ hs

/-! ## Decimal formatting lemmas -/

theorem utoa_acc (fuel n : Nat) (acc : List Nat) :
    utoa fuel n acc = utoa fuel n [] ++ acc := by
  induction fuel generalizing n acc with
  | zero => simp [utoa]
  | succ f ih =>
    simp only [utoa]
    split
    · simp
    · rw [ih (n / 10) ((48 + n % 10) :: acc), ih (n / 10) [48 + n % 10]]
      simp

theorem utoa_digit (fuel n : Nat) : ∀ b ∈ utoa fuel n [], 48 ≤ b ∧ b ≤ 57 := by
  induction fuel generalizing n with
  | zero => simp [utoa]
  | succ f ih =>
    intro b hb
    simp only [utoa] at hb
    split at hb
    · simp at hb; omega
    · rw [utoa_acc] at hb
      simp at hb
      rcases hb with hb | hb
      · exact ih _ b hb
      · omega

theorem utoa_ne_nil (fuel n : Nat) : utoa (fuel + 1) n [] ≠ [] := by
  simp only [utoa]
  split
  · simp
  · rw [utoa_acc]; simp

theorem utoa_length_le (fuel n k : Nat) (hk : 0 < k) (hn : n < 10 ^ k) :
    (utoa fuel n []).length ≤ k := by
  induction fuel generalizing n k with
  | zero => simp [utoa]
  | succ f ih =>
    simp only [utoa]
    split
    · simp; omega
    · rename_i h
      rw [utoa_acc]
      obtain ⟨j, rfl⟩ : ∃ j, k = j + 1 := ⟨k - 1, by omega⟩
      have hj : 0 < j := by
        rcases Nat.eq_zero_or_pos j with h0 | h0
        · subst h0; simp at hn; omega
        · exact h0
      have hdiv : n / 10 < 10 ^ j := by
        rw [Nat.div_lt_iff_lt_mul (by decide)]
        rw [pow_succ] at hn; exact hn
      have := ih (n / 10) j hj hdiv
      simp; omega

theorem digitsVal_utoa (fuel n : Nat) (h : n < fuel) : digitsVal (utoa fuel n []) = n := by
  induction fuel generalizing n with
  | zero => omega
  | succ f ih =>
    simp only [utoa]
    split
    · simp [digitsVal]; omega
    · rw [utoa_acc]
      have hlt : n / 10 < f := by omega
      have := ih (n / 10) hlt
      simp only [digitsVal] at this
      simp [digitsVal, List.foldl_append, this]; omega

theorem fmt_d_ne_nil (v : Int) : fmt_d v ≠ [] := by
  cases v with
  | ofNat n => exact utoa_ne_nil n n
  | negSucc n => simp [fmt_d]

theorem fmt_d_noNul (v : Int) : ∀ b ∈ fmt_d v, b ≠ 0 := by
  intro b hb
  cases v with
  | ofNat n =>
    have := utoa_digit (n + 1) n b hb
    omega
  | negSucc n =>
    simp only [fmt_d, List.mem_cons] at hb
    rcases hb with hb | hb
    · omega
    · have := utoa_digit (n + 2) (n + 1) b hb
      omega

theorem fmt_d_injective (v w : Int) (h : fmt_d v = fmt_d w) : v = w := by
  cases v with
  | ofNat n =>
    cases w with
    | ofNat m =>
      have h1 : utoa (n + 1) n [] = utoa (m + 1) m [] := h
      have := congrArg digitsVal h1
      rw [digitsVal_utoa _ _ (by omega), digitsVal_utoa _ _ (by omega)] at this
      rw [this]
    | negSucc m =>
      exfalso
      have h1 : utoa (n + 1) n [] = 45 :: utoa (m + 2) (m + 1) [] := h
      have := utoa_digit (n + 1) n 45 (by rw [h1]; simp)
      omega
  | negSucc n =>
    cases w with
    | ofNat m =>
      exfalso
      have h1 : 45 :: utoa (n + 2) (n + 1) [] = utoa (m + 1) m [] := h
      have := utoa_digit (m + 1) m 45 (by rw [← h1]; simp)
      omega
    | negSucc m =>
      have h1 : 45 :: utoa (n + 2) (n + 1) [] = 45 :: utoa (m + 2) (m + 1) [] := h
      have h2 := congrArg digitsVal (List.cons.inj h1).2
      rw [digitsVal_utoa _ _ (by omega), digitsVal_utoa _ _ (by omega)] at h2
      have : n = m := by omega
      rw [this]

theorem fmt_d_length_le (v : Int) (hv : IsInt32 v) : (fmt_d v).length ≤ 11 := by
  obtain ⟨h1, h2⟩ := hv
  simp only [INT_MIN, INT_MAX] at h1 h2
  cases v with
  | ofNat n =>
    have hn : n < 10 ^ 10 := by
      have : (n : Int) ≤ 2147483647 := h2
      norm_num; omega
    have := utoa_length_le (n + 1) n 10 (by decide) hn
    simpa [fmt_d] using (by omega : (utoa (n + 1) n []).length ≤ 11)
  | negSucc n =>
    have hn : n + 1 < 10 ^ 10 := by
      have : -2147483648 ≤ Int.negSucc n := h1
      rw [Int.negSucc_eq] at this
      norm_num; omega
    have := utoa_length_le (n + 2) (n + 1) 10 (by decide) hn
    simp [fmt_d]; omega

/-- The decimal digits agree with the ones of the standard library. -/
theorem utoa_eq_toDigitsCore (fuel n : Nat) (ds : List Char) :
    utoa fuel n (ds.map Char.toNat) = (Nat.toDigitsCore 10 fuel n ds).map Char.toNat := by
  induction fuel generalizing n ds with
  | zero => simp [utoa, Nat.toDigitsCore]
  | succ f ih =>
    have hd : (Nat.digitChar (n % 10)).toNat = 48 + n % 10 := by
      have hlt : n % 10 < 10 := Nat.mod_lt _ (by decide)
      generalize n % 10 = d at hlt
      interval_cases d <;> rfl
    simp only [utoa, Nat.toDigitsCore]
    split
    · simp [hd]
    · rw [← ih]; simp [hd]

theorem fmt_d_eq_toString (v : Int) : fmt_d v = bytes (toString v) := by
  cases v with
  | ofNat n =>
    have := utoa_eq_toDigitsCore (n + 1) n []
    simp only [List.map_nil] at this
    simp only [fmt_d, this, bytes]
    rfl
  | negSucc n =>
    have := utoa_eq_toDigitsCore (n + 2) (n + 1) []
    simp only [List.map_nil] at this
    simp only [fmt_d, this, bytes]
    rfl

theorem vformat_temp (t : Int) : vformat (bytes "%d C") [t] = fmt_d t ++ bytes " C" := rfl

theorem vformat_humid (h : Int) : vformat (bytes "%d %%") [h] = fmt_d h ++ bytes " %" := rfl

theorem bytes_C : bytes " C" = [32, 67] := by decide

theorem bytes_pct : bytes " %" = [32, 37] := by decide

/-! ## The formatted texts -/

theorem fmt_suffix_noNul (v : Int) (suf : List Nat) (hs : 0 ∉ suf) :
    0 ∉ (fmt_d v ++ suf).take 31 := by
  intro h
  have h1 := List.mem_of_mem_take h
  rw [List.mem_append] at h1
  rcases h1 with h1 | h1
  · exact fmt_d_noNul v 0 h1 rfl
  · exact hs h1

theorem temp_str_eq (t : Int) : temp_str t = some (tempText t) := by
  have h := readCStr_append_zero ((fmt_d t ++ bytes " C").take 31) []
    (fmt_suffix_noNul t _ (by decide))
  simpa [temp_str, snprintf, vformat_temp, tempText] using h

theorem humid_str_eq (h : Int) : humid_str h = some (humidText h) := by
  have h1 := readCStr_append_zero ((fmt_d h ++ bytes " %").take 31) []
    (fmt_suffix_noNul h _ (by decide))
  simpa [humid_str, snprintf, vformat_humid, humidText] using h1

theorem tempText_noNul (t : Int) : 0 ∉ tempText t := fmt_suffix_noNul t _ (by decide)

theorem humidText_noNul (h : Int) : 0 ∉ humidText h := fmt_suffix_noNul h _ (by decide)

theorem tempText_length (t : Int) : (tempText t).length < 32 := by
  have : (tempText t).length ≤ 31 := by simp [tempText]
  omega

theorem humidText_length (h : Int) : (humidText h).length < 32 := by
  have : (humidText h).length ≤ 31 := by simp [humidText]
  omega

theorem fmt_suffix_length (v : Int) (x y : Nat) : 3 ≤ ((fmt_d v ++ [x, y]).take 31).length := by
  have h := fmt_d_ne_nil v
  have : 0 < (fmt_d v).length := List.length_pos.mpr h
  simp; omega

theorem tempText_ne_00 (t : Int) : tempText t ≠ bytes "00" := by
  intro h
  have h1 := fmt_suffix_length t 32 67
  have h2 : (tempText t).length = 2 := by rw [h]; decide
  rw [tempText, bytes_C] at h2
  omega

theorem humidText_ne_00 (h : Int) : humidText h ≠ bytes "00" := by
  intro h0
  have h1 := fmt_suffix_length h 32 37
  have h2 : (humidText h).length = 2 := by rw [h0]; decide
  rw [humidText, bytes_pct] at h2
  omega

theorem tempText_ne_nil (t : Int) : tempText t ≠ [] := by
  intro h
  have h1 := fmt_suffix_length t 32 67
  rw [← bytes_C, ← tempText, h] at h1
  simp at h1

theorem humidText_ne_nil (h : Int) : humidText h ≠ [] := by
  intro h0
  have h1 := fmt_suffix_length h 32 37
  rw [← bytes_pct, ← humidText, h0] at h1
  simp at h1

theorem tempText_inRange (t : Int) (ht : IsInt32 t) : tempText t = fmt_d t ++ bytes " C" := by
  have := fmt_d_length_le t ht
  exact List.take_of_length_le (by simp [bytes_C]; omega)

theorem humidText_inRange (h : Int) (hh : IsInt32 h) :
    humidText h = fmt_d h ++ bytes " %" := by
  have := fmt_d_length_le h hh
  exact List.take_of_length_le (by simp [bytes_pct]; omega)

theorem tempText_injective (t u : Int) (ht : IsInt32 t) (hu : IsInt32 u)
    (h : tempText t = tempText u) : t = u := by
  rw [tempText_inRange t ht, tempText_inRange u hu] at h
  exact fmt_d_injective t u (List.append_cancel_right h)

theorem humidText_injective (t u : Int) (ht : IsInt32 t) (hu : IsInt32 u)
    (h : humidText t = humidText u) : t = u := by
  rw [humidText_inRange t ht, humidText_inRange u hu] at h
  exact fmt_d_injective t u (List.append_cancel_right h)

/-! ## One call of `update_temp_and_humidity_labels` -/

theorem readCStr_fieldCache (buf a b : List Nat) (ha : readCStr buf = some a)
    (hb : 0 ∉ b) (hl : b.length < 32) : readCStr (fieldCache buf a b) = some b := by
  unfold fieldCache
  split
  · rename_i h; rw [← h]; exact ha
  · exact readCStr_strncpy buf b hb hl

theorem update_spec (s : State) (temp humid : Obj) (a c b d : List Nat)
    (ha : readCStr s.prev_temp = some a) (hc : readCStr s.prev_humid = some c)
    (hb : 0 ∉ b) (hd : 0 ∉ d) :
    update_temp_and_humidity_labels s temp humid b d =
      some ({ s with prev_temp := fieldCache s.prev_temp a b,
                     prev_humid := fieldCache s.prev_humid c d },
            fieldEvs temp a b ++ fieldEvs humid c d) := by
  have hna := readCStr_noNul _ _ ha
  have hnc := readCStr_noNul _ _ hc
  have e1 := strcmp_eq_zero_iff a b hna hb
  have e2 := strcmp_eq_zero_iff c d hnc hd
  unfold update_temp_and_humidity_labels
  rw [ha]
  by_cases h1 : a = b <;> by_cases h2 : c = d <;>
    simp [e1, e2, h1, h2, hc, fieldEvs, fieldCache, strcmp_self]

/-! ## Observing traces -/

theorem redraws_append (label : Obj) (xs ys : List Ev) :
    redraws label (xs ++ ys) = redraws label xs ++ redraws label ys := by
  induction xs with
  | nil => rfl
  | cons e es ih =>
    cases e <;> simp [redraws, ih]
    split <;> simp

theorem screenAfter_append (scr : Obj → Widget) (xs ys : List Ev) :
    screenAfter scr (xs ++ ys) = screenAfter (screenAfter scr xs) ys := by
  simp [screenAfter, List.foldl_append]

theorem quiet_applyEv (scr : Obj → Widget) (e : Ev) (h : e.isQuiet = true) :
    applyEv scr e = scr := by
  cases e <;> simp [Ev.isQuiet] at h <;> rfl

theorem quiet_screenAfter (scr : Obj → Widget) (l : List Ev) (h : ∀ e ∈ l, e.isQuiet = true) :
    screenAfter scr l = scr := by
  induction l generalizing scr with
  | nil => rfl
  | cons e es ih =>
    have he := h e (by simp)
    have hes : ∀ x ∈ es, x.isQuiet = true := fun x hx => h x (by simp [hx])
    show screenAfter (applyEv scr e) es = scr
    rw [quiet_applyEv scr e he]
    exact ih scr hes

theorem quiet_filter_display (l : List Ev) (h : ∀ e ∈ l, e.isQuiet = true) :
    l.filter Ev.isDisplayOp = [] := by
  rw [List.filter_eq_nil_iff]
  intro e he
  have := h e he
  cases e <;> simp [Ev.isQuiet] at this <;> simp [Ev.isDisplayOp]

theorem quiet_filter_call (l : List Ev) (h : ∀ e ∈ l, e.isQuiet = true) :
    l.filter Ev.isUpdateLabelCall = [] := by
  rw [List.filter_eq_nil_iff]
  intro e he
  have := h e he
  cases e <;> simp [Ev.isQuiet] at this <;> simp [Ev.isUpdateLabelCall]

theorem quiet_redraws (label : Obj) (l : List Ev) (h : ∀ e ∈ l, e.isQuiet = true) :
    redraws label l = [] := by
  induction l with
  | nil => rfl
  | cons e es ih =>
    have he := h e (by simp)
    have hes : ∀ x ∈ es, x.isQuiet = true := fun x hx => h x (by simp [hx])
    cases e <;> simp [Ev.isQuiet] at he <;> simp [redraws, ih hes]

/-! ## One loop iteration -/

theorem read_dht11_quiet (s : State) (r : SensorReply) :
    ∀ e ∈ (read_dht11 s r).2.2, e.isQuiet = true ∧ e ≠ Ev.call_read_dht11 := by
  intro e he
  unfold read_dht11 at he
  split_ifs at he <;>
    simp only [List.mem_cons, List.mem_singleton, List.not_mem_nil, or_false] at he <;>
    rcases he with rfl | rfl | rfl | rfl <;> simp [Ev.isQuiet]

theorem read_dht11_fail (s : State) (r : SensorReply) (h : r.succeeds = false) :
    (read_dht11 s r).1 = s ∧ (read_dht11 s r).2.1 = false := by
  unfold read_dht11
  simp only [SensorReply.succeeds, Bool.and_eq_false_iff, decide_eq_false_iff_not] at h
  split_ifs <;> simp_all

theorem read_dht11_ok (s : State) (r : SensorReply) (h : r.succeeds = true) :
    (read_dht11 s r).1 = { s with temp_c := r.temp_val1, humidity := r.humid_val1 } ∧
    (read_dht11 s r).2.1 = true := by
  unfold read_dht11
  simp only [SensorReply.succeeds, Bool.and_eq_true, decide_eq_true_eq] at h
  obtain ⟨⟨h1, h2⟩, h3⟩ := h
  simp [h1, h2, h3]

theorem tailEvs_quiet (s : State) : ∀ e ∈ tailEvs s, e.isQuiet = true := by
  intro e he
  simp [tailEvs] at he
  rcases he with he | he | he <;> subst he <;> rfl

theorem poll_spec (s : State) (r : SensorReply) (a c : List Nat)
    (ha : readCStr s.prev_temp = some a) (hc : readCStr s.prev_humid = some c) :
    ∃ s', poll s r =
        some (s', Ev.call_read_dht11 :: (read_dht11 s r).2.2 ++ updEvs r a c ++ tailEvs s') ∧
      s'.first_run = s.first_run ∧
      readCStr s'.prev_temp = some (if r.succeeds then tempText r.temp_val1 else a) ∧
      readCStr s'.prev_humid = some (if r.succeeds then humidText r.humid_val1 else c) ∧
      (r.succeeds = false → s'.prev_temp = s.prev_temp ∧ s'.prev_humid = s.prev_humid) := by
  cases hr : r.succeeds with
  | false =>
    obtain ⟨h1, h2⟩ := read_dht11_fail s r hr
    refine ⟨{ s with last_temp := s.temp_c, last_humid := s.humidity }, ?_, rfl, ?_, ?_, ?_⟩
    · unfold poll
      rcases hrd : read_dht11 s r with ⟨s1, ok, ev1⟩
      rw [hrd] at h1 h2
      simp only at h1 h2
      subst h1 h2
      simp [updEvs, hr, tailEvs]
    · simpa using ha
    · simpa using hc
    · intro _; exact ⟨rfl, rfl⟩
  | true =>
    obtain ⟨h1, h2⟩ := read_dht11_ok s r hr
    have hu := update_spec { s with temp_c := r.temp_val1, humidity := r.humid_val1 }
      temp_num_text_label humidity_num_text_label a c
      (tempText r.temp_val1) (humidText r.humid_val1) ha hc
      (tempText_noNul _) (humidText_noNul _)
    refine ⟨{ s with temp_c := r.temp_val1, humidity := r.humid_val1,
                     prev_temp := fieldCache s.prev_temp a (tempText r.temp_val1),
                     prev_humid := fieldCache s.prev_humid c (humidText r.humid_val1),
                     last_temp := r.temp_val1, last_humid := r.humid_val1 },
      ?_, rfl, ?_, ?_, ?_⟩
    · unfold poll
      rcases hrd : read_dht11 s r with ⟨s1, ok, ev1⟩
      rw [hrd] at h1 h2
      simp only at h1 h2
      subst h1 h2
      simp [updEvs, hr, tailEvs, temp_str_eq, humid_str_eq, hu]
    · simpa using readCStr_fieldCache _ _ _ ha (tempText_noNul _) (tempText_length _)
    · simpa using readCStr_fieldCache _ _ _ hc (humidText_noNul _) (humidText_length _)
    · intro h; exact Bool.noConfusion h

theorem loop_body_spec (s : State) (r : SensorReply) (a c : List Nat)
    (ha : readCStr s.prev_temp = some a) (hc : readCStr s.prev_humid = some c) :
    ∃ s', loop_body s r =
        some (s', (if s.first_run then [Ev.lv_timer_handler, Ev.lv_refr_now] else []) ++
          (Ev.call_read_dht11 :: (read_dht11 (first_draw s).1 r).2.2 ++ updEvs r a c ++
            tailEvs s')) ∧
      s'.first_run = false ∧
      readCStr s'.prev_temp = some (if r.succeeds then tempText r.temp_val1 else a) ∧
      readCStr s'.prev_humid = some (if r.succeeds then humidText r.humid_val1 else c) ∧
      (r.succeeds = false → s'.prev_temp = s.prev_temp ∧ s'.prev_humid = s.prev_humid) := by
  have hfd : (first_draw s).1.prev_temp = s.prev_temp ∧
      (first_draw s).1.prev_humid = s.prev_humid ∧ (first_draw s).1.first_run = false ∧
      (first_draw s).2 = (if s.first_run then [Ev.lv_timer_handler, Ev.lv_refr_now] else []) := by
    unfold first_draw
    cases hfr : s.first_run <;> simp [hfr]
  obtain ⟨e1, e2, e3, e4⟩ := hfd
  obtain ⟨s', hp, h1, h2, h3, h4⟩ := poll_spec (first_draw s).1 r a c (by rw [e1]; exact ha)
    (by rw [e2]; exact hc)
  refine ⟨s', ?_, by rw [h1, e3], h2, h3, ?_⟩
  · unfold loop_body
    rcases hfd : first_draw s with ⟨s1, ev1⟩
    rw [hfd] at hp e4
    simp only at hp e4
    simp [hp, e4]
  · intro h
    obtain ⟨h5, h6⟩ := h4 h
    exact ⟨by rw [h5, e1], by rw [h6, e2]⟩

theorem update_label_filter_call (label : Obj) (p t : List Nat) :
    (update_label label p t).filter Ev.isUpdateLabelCall = [] := by
  unfold update_label
  split <;> simp [Ev.isUpdateLabelCall]

theorem fieldEvs_filter_call (label : Obj) (a b : List Nat) :
    (fieldEvs label a b).filter Ev.isUpdateLabelCall =
      if a = b then [] else [Ev.call_update_label label a b] := by
  unfold fieldEvs
  split
  · rfl
  · simp [update_label_filter_call, Ev.isUpdateLabelCall]

/-! ## The claims about one call -/

/-- C1: when the caches hold the texts `a` (temperature) and `c` (humidity) and
the candidates `b` and `d` are shorter than 32 bytes,
`update_temp_and_humidity_labels` calls `update_label` for a field exactly
when its cached text differs from the candidate, with the cached text as
`prev_text` and the candidate as `text`; a field whose texts are equal gets
no call at all and its cache array is left as it was; afterwards each cache
holds the candidate. -/
theorem change_detection (s : State) (temp humid : Obj) (a b c d : List Nat)
    (ha : readCStr s.prev_temp = some a) (hc : readCStr s.prev_humid = some c)
    (hb : 0 ∉ b) (hd : 0 ∉ d) (hlb : b.length < 32) (hld : d.length < 32) :
    ∃ s' evs, update_temp_and_humidity_labels s temp humid b d = some (s', evs) ∧
      evs = (if a ≠ b then Ev.call_update_label temp a b :: update_label temp a b else []) ++
            (if c ≠ d then Ev.call_update_label humid c d :: update_label humid c d else []) ∧
      evs.filter Ev.isUpdateLabelCall =
        (if a ≠ b then [Ev.call_update_label temp a b] else []) ++
        (if c ≠ d then [Ev.call_update_label humid c d] else []) ∧
      (a = b → s'.prev_temp = s.prev_temp) ∧
      (c = d → s'.prev_humid = s.prev_humid) ∧
      readCStr s'.prev_temp = some b ∧ readCStr s'.prev_humid = some d := by
  refine ⟨_, _, update_spec s temp humid a c b d ha hc hb hd, ?_, ?_, ?_, ?_, ?_, ?_⟩
  · by_cases h1 : a = b <;> by_cases h2 : c = d <;> simp [fieldEvs, h1, h2]
  · rw [List.filter_append, fieldEvs_filter_call, fieldEvs_filter_call]
    by_cases h1 : a = b <;> by_cases h2 : c = d <;> simp [h1, h2]
  · intro h; simp [fieldCache, h]
  · intro h; simp [fieldCache, h]
  · exact readCStr_fieldCache _ _ _ ha hb hlb
  · exact readCStr_fieldCache _ _ _ hc hd hld

theorem change_detection_witness :
    readCStr ({ State.init with prev_temp := strncpy State.init.prev_temp (bytes "20 C") 32,
                                prev_humid := strncpy State.init.prev_humid (bytes "45 %") 32 } :
        State).prev_temp = some (bytes "20 C") ∧
    ∃ s' evs, update_temp_and_humidity_labels
        { State.init with prev_temp := strncpy State.init.prev_temp (bytes "20 C") 32,
                          prev_humid := strncpy State.init.prev_humid (bytes "45 %") 32 }
        temp_num_text_label humidity_num_text_label (bytes "21 C") (bytes "45 %") =
          some (s', evs) ∧
      evs.filter Ev.isUpdateLabelCall =
        [Ev.call_update_label temp_num_text_label (bytes "20 C") (bytes "21 C")] ∧
      readCStr s'.prev_temp = some (bytes "21 C") ∧
      readCStr s'.prev_humid = some (bytes "45 %") := by
  refine ⟨by decide, ?_⟩
  obtain ⟨s', evs, h1, _, h3, _, _, h6, h7⟩ :=
    change_detection
      { State.init with prev_temp := strncpy State.init.prev_temp (bytes "20 C") 32,
                        prev_humid := strncpy State.init.prev_humid (bytes "45 %") 32 }
      temp_num_text_label humidity_num_text_label
      (bytes "20 C") (bytes "21 C") (bytes "45 %") (bytes "45 %")
      (by decide) (by decide) (by decide) (by decide) (by decide) (by decide)
  exact ⟨s', evs, h1, by simpa using h3, h6, h7⟩

/-- C2: `update_label label old new` is, when `old` is not empty, the clear
phase (paint `old` in white, mark dirty, forced refresh) followed by the draw
phase (paint `new` in black, mark dirty, forced refresh), and the draw phase
alone when `old` is empty; it forces 2 refreshes in the first case and 1 in
the second, never 0; afterwards the label shows `new` in black and no other
label changed. -/
theorem two_phase_redraw (label : Obj) (old new : List Nat) (scr : Obj → Widget) :
    update_label label old new =
      (if old = [] then [] else spec_paint_phase label old Color.white) ++
        spec_paint_phase label new Color.black ∧
    (update_label label old new).count Ev.lv_refr_now = (if old = [] then 1 else 2) ∧
    0 < (update_label label old new).count Ev.lv_refr_now ∧
    screenAfter scr (update_label label old new) label =
      { text := new, color := Color.black } ∧
    ∀ o, o ≠ label → screenAfter scr (update_label label old new) o = scr o := by
  cases old with
  | nil =>
    refine ⟨by simp [update_label, strlen, spec_paint_phase], ?_, ?_, ?_, ?_⟩
    · simp [update_label, strlen, List.count_cons]
    · simp [update_label, strlen, List.count_cons]
    · simp [update_label, strlen, screenAfter, applyEv]
    · intro o ho
      simp [update_label, strlen, screenAfter, applyEv, ho]
  | cons x xs =>
    refine ⟨by simp [update_label, strlen, spec_paint_phase], ?_, ?_, ?_, ?_⟩
    · simp [update_label, strlen, List.count_cons]
    · simp [update_label, strlen, List.count_cons]
    · simp [update_label, strlen, screenAfter, applyEv]
    · intro o ho
      simp [update_label, strlen, screenAfter, applyEv, ho]

/-- C7: when the caches hold strings and the candidates are shorter than 32
bytes, the first call of `update_temp_and_humidity_labels` leaves each cache
holding the candidate of its field, and a second call with the same candidates
makes no call at all and returns the state unchanged. -/
theorem idempotence (s : State) (temp humid : Obj) (a b c d : List Nat)
    (ha : readCStr s.prev_temp = some a) (hc : readCStr s.prev_humid = some c)
    (hb : 0 ∉ b) (hd : 0 ∉ d) (hlb : b.length < 32) (hld : d.length < 32) :
    ∃ s1 ev1, update_temp_and_humidity_labels s temp humid b d = some (s1, ev1) ∧
      readCStr s1.prev_temp = some b ∧ readCStr s1.prev_humid = some d ∧
      update_temp_and_humidity_labels s1 temp humid b d = some (s1, []) := by
  have h1 := readCStr_fieldCache _ _ _ ha hb hlb
  have h2 := readCStr_fieldCache _ _ _ hc hd hld
  refine ⟨_, _, update_spec s temp humid a c b d ha hc hb hd, h1, h2, ?_⟩
  rw [update_spec _ temp humid b d b d h1 h2 hb hd]
  simp [fieldEvs, fieldCache]

theorem idempotence_witness :
    readCStr State.init.prev_temp = some [] ∧ readCStr State.init.prev_humid = some [] ∧
    ∃ s1 ev1, update_temp_and_humidity_labels State.init temp_num_text_label
        humidity_num_text_label (bytes "20 C") (bytes "45 %") = some (s1, ev1) ∧
      readCStr s1.prev_temp = some (bytes "20 C") ∧
      readCStr s1.prev_humid = some (bytes "45 %") ∧
      update_temp_and_humidity_labels s1 temp_num_text_label humidity_num_text_label
        (bytes "20 C") (bytes "45 %") = some (s1, []) :=
  ⟨by decide, by decide,
   idempotence State.init temp_num_text_label humidity_num_text_label
     [] (bytes "20 C") [] (bytes "45 %")
     (by decide) (by decide) (by decide) (by decide) (by decide) (by decide)⟩

/-! ## The claims about one loop iteration -/

theorem poll_fail (s : State) (r : SensorReply) (hr : r.succeeds = false) :
    poll s r = some ({ s with last_temp := s.temp_c, last_humid := s.humidity },
      Ev.call_read_dht11 :: (read_dht11 s r).2.2 ++
        tailEvs { s with last_temp := s.temp_c, last_humid := s.humidity }) := by
  obtain ⟨h1, h2⟩ := read_dht11_fail s r hr
  unfold poll
  rcases hrd : read_dht11 s r with ⟨s1, ok, ev1⟩
  rw [hrd] at h1 h2
  simp only at h1 h2
  subst h1 h2
  simp [tailEvs]

/-- C3: for every loop state, the polling step of a loop iteration (lines
169-184, the sensor read and what follows it) whose sensor read fails, whether
`sensor_sample_fetch` or either `sensor_channel_get` fails, makes no
`update_label` call and no display call, and leaves both cache arrays and
every label's text and colour exactly as they were; in every iteration whose
`first_run` flag is already false the polling step is the whole iteration. -/
theorem failure_isolation (s : State) (r : SensorReply) (hr : r.succeeds = false) :
    ∃ s' evs, poll s r = some (s', evs) ∧
      evs.filter Ev.isUpdateLabelCall = [] ∧
      evs.filter Ev.isDisplayOp = [] ∧
      redraws temp_num_text_label evs = [] ∧
      redraws humidity_num_text_label evs = [] ∧
      s'.prev_temp = s.prev_temp ∧ s'.prev_humid = s.prev_humid ∧
      (∀ scr, screenAfter scr evs = scr) ∧
      (s.first_run = false → loop_body s r = some (s', evs)) := by
  have hq : ∀ e ∈ Ev.call_read_dht11 :: (read_dht11 s r).2.2 ++
      tailEvs { s with last_temp := s.temp_c, last_humid := s.humidity },
      e.isQuiet = true := by
    intro e he
    simp only [List.cons_append, List.mem_cons, List.mem_append] at he
    rcases he with he | he | he
    · subst he; rfl
    · exact (read_dht11_quiet s r e he).1
    · exact tailEvs_quiet _ e he
  refine ⟨{ s with last_temp := s.temp_c, last_humid := s.humidity },
    Ev.call_read_dht11 :: (read_dht11 s r).2.2 ++
      tailEvs { s with last_temp := s.temp_c, last_humid := s.humidity },
    poll_fail s r hr, quiet_filter_call _ hq, quiet_filter_display _ hq,
    quiet_redraws _ _ hq, quiet_redraws _ _ hq, rfl, rfl,
    fun scr => quiet_screenAfter scr _ hq, ?_⟩
  intro hfr
  have hfd : first_draw s = (s, []) := by simp [first_draw, hfr]
  simp [loop_body, hfd, poll_fail s r hr]

theorem failure_isolation_witness :
    SensorReply.fail.succeeds = false ∧
    ∃ s' evs, poll (main_setup { epaper_ready := true, dht_ready := true }).1
        SensorReply.fail = some (s', evs) ∧
      evs.filter Ev.isUpdateLabelCall = [] ∧
      evs.filter Ev.isDisplayOp = [] ∧
      s'.prev_temp = (main_setup { epaper_ready := true, dht_ready := true }).1.prev_temp ∧
      s'.prev_humid = (main_setup { epaper_ready := true, dht_ready := true }).1.prev_humid ∧
      ∀ scr, screenAfter scr evs = scr := by
  obtain ⟨s', evs, h1, h2, h3, _, _, h6, h7, h8, _⟩ :=
    failure_isolation (main_setup { epaper_ready := true, dht_ready := true }).1
      SensorReply.fail (by decide)
  exact ⟨by decide, s', evs, h1, h2, h3, h6, h7, h8⟩

/-- C8: for 32-bit readings `t` and `h`, the text the loop passes for the
temperature field is the decimal representation of `t` followed by a space
and `C`, the text passed for the humidity field is the decimal
representation of `h` followed by a space and one percent sign, and on 32-bit
values both formats are injective. -/
theorem text_formatting (t h : Int) (ht : IsInt32 t) (hh : IsInt32 h) :
    temp_str t = some (bytes (toString t) ++ bytes " C") ∧
    humid_str h = some (bytes (toString h) ++ bytes " %") ∧
    (∀ (s : State) (a c : List Nat), readCStr s.prev_temp = some a →
      readCStr s.prev_humid = some c →
      ∃ s' evs, poll s (SensorReply.ok t h) = some (s', evs) ∧
        Ev.call_update_temp_and_humidity_labels temp_num_text_label humidity_num_text_label
          (bytes (toString t) ++ bytes " C") (bytes (toString h) ++ bytes " %") ∈ evs) ∧
    (∀ u, IsInt32 u → temp_str u = temp_str t → u = t) ∧
    (∀ u, IsInt32 u → humid_str u = humid_str h → u = h) := by
  have e1 : tempText t = bytes (toString t) ++ bytes " C" := by
    rw [tempText_inRange t ht, fmt_d_eq_toString]
  have e2 : humidText h = bytes (toString h) ++ bytes " %" := by
    rw [humidText_inRange h hh, fmt_d_eq_toString]
  refine ⟨by rw [temp_str_eq, e1], by rw [humid_str_eq, e2], ?_, ?_, ?_⟩
  · intro s a c ha hc
    obtain ⟨s', hp, _⟩ := poll_spec s (SensorReply.ok t h) a c ha hc
    refine ⟨s', _, hp, ?_⟩
    have hs : (SensorReply.ok t h).succeeds = true := by
      simp [SensorReply.succeeds, SensorReply.ok]
    have hm : Ev.call_update_temp_and_humidity_labels temp_num_text_label
        humidity_num_text_label (bytes (toString t) ++ bytes " C")
        (bytes (toString h) ++ bytes " %") ∈ updEvs (SensorReply.ok t h) a c := by
      rw [updEvs, if_pos hs, ← e1, ← e2]
      exact List.mem_cons_self _ _
    simp only [List.cons_append, List.mem_cons, List.mem_append]
    exact Or.inr (Or.inl (Or.inr hm))
  · intro u hu h1
    rw [temp_str_eq, temp_str_eq] at h1
    exact tempText_injective u t hu ht (Option.some.inj h1)
  · intro u hu h1
    rw [humid_str_eq, humid_str_eq] at h1
    exact humidText_injective u h hu hh (Option.some.inj h1)

theorem text_formatting_witness :
    IsInt32 (-7) ∧ IsInt32 45 ∧
    temp_str (-7) = some (bytes "-7 C") ∧ humid_str 45 = some (bytes "45 %") := by
  obtain ⟨h1, h2, _⟩ := text_formatting (-7) 45 (by decide) (by decide)
  exact ⟨by decide, by decide, h1, h2⟩

/-! ## The shape of a run of the loop -/

theorem loop_shape (rs : List SensorReply) (s : State) (a c : List Nat)
    (ha : readCStr s.prev_temp = some a) (hc : readCStr s.prev_humid = some c) :
    ∃ s' evs, loop s rs = some (s', evs) ∧ LoopShape s.first_run a c rs evs ∧
      readCStr s'.prev_temp = some (rs.foldl nextTemp a) ∧
      readCStr s'.prev_humid = some (rs.foldl nextHumid c) := by
  induction rs generalizing s a c with
  | nil => exact ⟨s, [], rfl, rfl, ha, hc⟩
  | cons r rs ih =>
    obtain ⟨s1, hb, hf, h1, h2, _⟩ := loop_body_spec s r a c ha hc
    obtain ⟨s2, evs, hl, hs, h3, h4⟩ := ih s1 (nextTemp a r) (nextHumid c r) h1 h2
    rw [hf] at hs
    refine ⟨s2, ((if s.first_run then [Ev.lv_timer_handler, Ev.lv_refr_now] else []) ++
      (Ev.call_read_dht11 :: (read_dht11 (first_draw s).1 r).2.2 ++ updEvs r a c ++
        tailEvs s1)) :: evs, by simp [loop, hb, hl], ?_, h3, h4⟩
    exact ⟨_, evs, rfl, ⟨_, _, fun e he => (read_dht11_quiet _ r e he).1, tailEvs_quiet s1, rfl⟩,
      hs⟩

theorem loopShape_length (rs : List SensorReply) (first : Bool) (a c : List Nat)
    (evs : List (List Ev)) (h : LoopShape first a c rs evs) : evs.length = rs.length := by
  induction rs generalizing first a c evs with
  | nil => simp [LoopShape] at h; simp [h]
  | cons r rs ih =>
    obtain ⟨ev, rest, rfl, _, hr⟩ := h
    simp [ih _ _ _ _ hr]

theorem update_label_redraws (l label : Obj) (p t : List Nat) :
    redraws l (update_label label p t) = [] := by
  unfold update_label
  split <;> simp [redraws]

theorem fieldEvs_redraws (l label : Obj) (a b : List Nat) :
    redraws l (fieldEvs label a b) = if a = b ∨ label ≠ l then [] else [(a, b)] := by
  unfold fieldEvs
  by_cases h : a = b
  · simp [h, redraws]
  · by_cases h2 : label = l
    · simp [h, h2, redraws, update_label_redraws]
    · simp [h, h2, redraws, update_label_redraws]

theorem labels_ne : temp_num_text_label ≠ humidity_num_text_label := by decide

theorem tickShape_redraws (first : Bool) (r : SensorReply) (a c : List Nat) (ev : List Ev)
    (h : TickShape first r a c ev) :
    redraws temp_num_text_label ev =
      (if r.succeeds = true ∧ a ≠ tempText r.temp_val1 then [(a, tempText r.temp_val1)]
       else []) ∧
    redraws humidity_num_text_label ev =
      (if r.succeeds = true ∧ c ≠ humidText r.humid_val1 then [(c, humidText r.humid_val1)]
       else []) := by
  obtain ⟨q1, q2, hq1, hq2, rfl⟩ := h
  have hfd : ∀ l, redraws l (if first then [Ev.lv_timer_handler, Ev.lv_refr_now] else []) = [] := by
    intro l; cases first <;> rfl
  have hne := labels_ne
  constructor
  · rw [redraws_append, hfd, List.nil_append, List.cons_append, List.cons_append]
    rw [show redraws temp_num_text_label (Ev.call_read_dht11 :: (q1 ++ updEvs r a c ++ q2)) =
      redraws temp_num_text_label (q1 ++ updEvs r a c ++ q2) from rfl]
    rw [redraws_append, redraws_append, quiet_redraws _ q1 hq1, quiet_redraws _ q2 hq2]
    unfold updEvs
    cases hs : r.succeeds
    · simp [redraws]
    · rw [if_pos rfl]
      rw [show ∀ x y z w rest, redraws temp_num_text_label
        (Ev.call_update_temp_and_humidity_labels x y z w :: rest) =
          redraws temp_num_text_label rest from fun _ _ _ _ _ => rfl]
      rw [redraws_append, fieldEvs_redraws, fieldEvs_redraws]
      by_cases hab : a = tempText r.temp_val1 <;> simp [hab, hne.symm]
  · rw [redraws_append, hfd, List.nil_append, List.cons_append, List.cons_append]
    rw [show redraws humidity_num_text_label
      (Ev.call_read_dht11 :: (q1 ++ updEvs r a c ++ q2)) =
      redraws humidity_num_text_label (q1 ++ updEvs r a c ++ q2) from rfl]
    rw [redraws_append, redraws_append, quiet_redraws _ q1 hq1, quiet_redraws _ q2 hq2]
    unfold updEvs
    cases hs : r.succeeds
    · simp [redraws]
    · rw [if_pos rfl]
      rw [show ∀ x y z w rest, redraws humidity_num_text_label
        (Ev.call_update_temp_and_humidity_labels x y z w :: rest) =
          redraws humidity_num_text_label rest from fun _ _ _ _ _ => rfl]
      rw [redraws_append, fieldEvs_redraws, fieldEvs_redraws]
      by_cases hab : c = humidText r.humid_val1 <;> simp [hab, hne]

theorem loopShape_get (rs : List SensorReply) (first : Bool) (a c : List Nat)
    (evs : List (List Ev)) (h : LoopShape first a c rs evs) (k : Nat) (r : SensorReply)
    (ev : List Ev) (hr : rs[k]? = some r) (he : evs[k]? = some ev) :
    ∃ f, TickShape f r ((rs.take k).foldl nextTemp a) ((rs.take k).foldl nextHumid c) ev := by
  induction rs generalizing first a c evs k with
  | nil => simp at hr
  | cons r0 rs ih =>
    obtain ⟨ev0, rest, rfl, ht, hl⟩ := h
    cases k with
    | zero =>
      simp at hr he
      subst hr he
      exact ⟨first, by simpa using ht⟩
    | succ k =>
      simp at hr he
      simpa using ih false _ _ rest hl k hr he

theorem main_setup_state (boot : Boot) :
    readCStr (main_setup boot).1.prev_temp = some [] ∧
    readCStr (main_setup boot).1.prev_humid = some [] ∧
    (main_setup boot).1.first_run = true := by
  rcases boot with ⟨_ | _, _ | _⟩ <;> decide

theorem main_eq (boot : Boot) (rs : List SensorReply) :
    ∃ s evs, loop (main_setup boot).1 rs = some (s, evs) ∧
      main boot rs = some ((main_setup boot).2 ++ evs.flatten) ∧
      LoopShape true [] [] rs evs ∧
      readCStr s.prev_temp = some (rs.foldl nextTemp []) ∧
      readCStr s.prev_humid = some (rs.foldl nextHumid []) := by
  obtain ⟨h1, h2, h3⟩ := main_setup_state boot
  obtain ⟨s, evs, hl, hs, h4, h5⟩ := loop_shape rs (main_setup boot).1 [] [] h1 h2
  rw [h3] at hs
  refine ⟨s, evs, hl, ?_, hs, h4, h5⟩
  unfold main
  rcases hm : main_setup boot with ⟨s0, ev0⟩
  rw [hm] at hl
  simp only at hl
  simp [hl]

/-! ## The redraw schedule over many iterations -/

theorem foldl_nextTemp (pre : List SensorReply) (a : List Nat) :
    pre.foldl nextTemp a = (match lastOk pre with
      | none => a
      | some v => tempText v.1) := by
  induction pre generalizing a with
  | nil => rfl
  | cons r rs ih =>
    rw [List.foldl_cons, ih, lastOk]
    cases hl : lastOk rs with
    | some v => rfl
    | none => cases hs : r.succeeds <;> simp [nextTemp, hs]

theorem foldl_nextHumid (pre : List SensorReply) (c : List Nat) :
    pre.foldl nextHumid c = (match lastOk pre with
      | none => c
      | some v => humidText v.2) := by
  induction pre generalizing c with
  | nil => rfl
  | cons r rs ih =>
    rw [List.foldl_cons, ih, lastOk]
    cases hl : lastOk rs with
    | some v => rfl
    | none => cases hs : r.succeeds <;> simp [nextHumid, hs]

theorem lastOk_mem (pre : List SensorReply) (v : Int × Int) (h : lastOk pre = some v) :
    ∃ r ∈ pre, r.succeeds = true ∧ v = (r.temp_val1, r.humid_val1) := by
  induction pre with
  | nil => simp [lastOk] at h
  | cons r rs ih =>
    rw [lastOk] at h
    cases hl : lastOk rs with
    | some w =>
      rw [hl] at h
      simp only at h
      obtain ⟨x, hx, hx2⟩ := ih (by rw [hl, h])
      exact ⟨x, by simp [hx], hx2⟩
    | none =>
      rw [hl] at h
      simp only at h
      cases hs : r.succeeds with
      | false => simp [hs] at h
      | true =>
        simp [hs] at h
        exact ⟨r, by simp, hs, h.symm⟩

theorem tempText_eq_toString (t : Int) (ht : IsInt32 t) :
    tempText t = bytes (toString t) ++ bytes " C" := by
  rw [tempText_inRange t ht, fmt_d_eq_toString]

theorem humidText_eq_toString (h : Int) (hh : IsInt32 h) :
    humidText h = bytes (toString h) ++ bytes " %" := by
  rw [humidText_inRange h hh, fmt_d_eq_toString]

/-- C4: in a run of `main` over any sequence of sensor replies with 32-bit
readings, the loop completes every iteration, and in iteration `k` the
`update_label` calls for the temperature label are exactly the redraws the
specification expects from the temperature of reply `k` and the temperature
of the most recent successful reply before it, with the texts formatted as
decimal number, space, `C`; the same holds for the humidity label with the
humidity readings and the texts decimal number, space, percent sign. -/
theorem redraw_schedule (boot : Boot) (replies : List SensorReply)
    (hr : ∀ r ∈ replies, r.InRange) :
    ∃ s evs, loop (main_setup boot).1 replies = some (s, evs) ∧
      evs.length = replies.length ∧
      ∀ (k : Nat) (r : SensorReply) (ev : List Ev),
        replies[k]? = some r → evs[k]? = some ev →
        redraws temp_num_text_label ev =
          spec_redraw (fun t => bytes (toString t) ++ bytes " C")
            ((lastOk (replies.take k)).map Prod.fst) r.succeeds r.temp_val1 ∧
        redraws humidity_num_text_label ev =
          spec_redraw (fun h => bytes (toString h) ++ bytes " %")
            ((lastOk (replies.take k)).map Prod.snd) r.succeeds r.humid_val1 := by
  obtain ⟨s, evs, hl, _, hs, _, _⟩ := main_eq boot replies
  refine ⟨s, evs, hl, loopShape_length _ _ _ _ _ hs, ?_⟩
  intro k r ev hk he
  obtain ⟨f, ht⟩ := loopShape_get replies true [] [] evs hs k r ev hk he
  obtain ⟨h1, h2⟩ := tickShape_redraws f r _ _ ev ht
  rw [foldl_nextTemp] at h1
  rw [foldl_nextHumid] at h2
  have hrin : r.InRange := hr r (List.getElem?_mem hk)
  rw [h1, h2]
  cases hs : r.succeeds with
  | false => simp [spec_redraw]
  | true =>
    cases hlo : lastOk (replies.take k) with
    | none =>
      simp only [spec_redraw, Option.map_none', if_true]
      rw [if_pos ⟨trivial, (tempText_ne_nil _).symm⟩, if_pos ⟨trivial, (humidText_ne_nil _).symm⟩,
        tempText_eq_toString _ hrin.1, humidText_eq_toString _ hrin.2]
      exact ⟨rfl, rfl⟩
    | some v =>
      obtain ⟨x, hx, _, hv⟩ := lastOk_mem _ v hlo
      have hxin : x.InRange := hr x (List.mem_of_mem_take hx)
      have hv1 : IsInt32 v.1 := by rw [hv]; exact hxin.1
      have hv2 : IsInt32 v.2 := by rw [hv]; exact hxin.2
      simp only [spec_redraw, Option.map_some', if_true]
      constructor
      · by_cases hq : r.temp_val1 = v.1
        · rw [if_pos hq, if_neg (by rw [hq]; simp)]
        · have hne : tempText v.1 ≠ tempText r.temp_val1 := fun h =>
            hq (tempText_injective _ _ hv1 hrin.1 h).symm
          rw [if_neg hq, if_pos ⟨trivial, hne⟩, tempText_eq_toString _ hv1,
            tempText_eq_toString _ hrin.1]
      · by_cases hq : r.humid_val1 = v.2
        · rw [if_pos hq, if_neg (by rw [hq]; simp)]
        · have hne : humidText v.2 ≠ humidText r.humid_val1 := fun h =>
            hq (humidText_injective _ _ hv2 hrin.2 h).symm
          rw [if_neg hq, if_pos ⟨trivial, hne⟩, humidText_eq_toString _ hv2,
            humidText_eq_toString _ hrin.2]

theorem redraw_schedule_witness :
    (∀ r ∈ scenario_steady, r.InRange) ∧
    (∃ s evs, loop (main_setup { epaper_ready := true, dht_ready := true }).1
        scenario_steady = some (s, evs) ∧
      evs.length = scenario_steady.length ∧
      ∀ (k : Nat) (r : SensorReply) (ev : List Ev),
        scenario_steady[k]? = some r → evs[k]? = some ev →
        redraws temp_num_text_label ev =
          spec_redraw (fun t => bytes (toString t) ++ bytes " C")
            ((lastOk (scenario_steady.take k)).map Prod.fst) r.succeeds r.temp_val1 ∧
        redraws humidity_num_text_label ev =
          spec_redraw (fun h => bytes (toString h) ++ bytes " %")
            ((lastOk (scenario_steady.take k)).map Prod.snd) r.succeeds r.humid_val1) ∧
    redrawsPerTick temp_num_text_label { epaper_ready := true, dht_ready := true }
        scenario_steady =
      some [[([], bytes "20 C")], [], [(bytes "20 C", bytes "21 C")], []] ∧
    redrawsPerTick humidity_num_text_label { epaper_ready := true, dht_ready := true }
        scenario_steady =
      some [[([], bytes "45 %")], [], [], [(bytes "45 %", bytes "50 %")]] ∧
    redrawsPerTick temp_num_text_label { epaper_ready := true, dht_ready := true }
        scenario_failure =
      some [[([], bytes "20 C")], [], [(bytes "20 C", bytes "22 C")]] ∧
    redrawsPerTick humidity_num_text_label { epaper_ready := true, dht_ready := true }
        scenario_failure =
      some [[([], bytes "45 %")], [], []] :=
  ⟨by decide,
   redraw_schedule { epaper_ready := true, dht_ready := true } scenario_steady (by decide),
   by decide, by decide, by decide, by decide⟩

/-! ## The first draw -/

theorem quiet_isLoopEv (e : Ev) (h : e.isQuiet = true) : e.isLoopEv = true := by
  cases e <;> first | rfl | exact h

theorem update_label_isLoopEv (label : Obj) (p t : List Nat) :
    ∀ e ∈ update_label label p t, e.isLoopEv = true := by
  intro e he
  unfold update_label at he
  rcases List.mem_append.mp he with h1 | h1
  · split at h1
    · simp only [List.mem_cons, List.mem_singleton, List.not_mem_nil, or_false] at h1
      rcases h1 with rfl | rfl | rfl | rfl <;> rfl
    · simp at h1
  · simp only [List.mem_cons, List.mem_singleton, List.not_mem_nil, or_false] at h1
    rcases h1 with rfl | rfl | rfl | rfl <;> rfl

theorem fieldEvs_isLoopEv (label : Obj) (a b : List Nat) :
    ∀ e ∈ fieldEvs label a b, e.isLoopEv = true := by
  intro e he
  unfold fieldEvs at he
  split at he
  · simp at he
  · rcases List.mem_cons.mp he with rfl | he
    · rfl
    · exact update_label_isLoopEv _ _ _ e he

theorem updEvs_isLoopEv (r : SensorReply) (a c : List Nat) :
    ∀ e ∈ updEvs r a c, e.isLoopEv = true := by
  intro e he
  unfold updEvs at he
  split at he
  · rcases List.mem_cons.mp he with rfl | he
    · rfl
    · rcases List.mem_append.mp he with he | he
      · exact fieldEvs_isLoopEv _ _ _ e he
      · exact fieldEvs_isLoopEv _ _ _ e he
  · simp at he

theorem tick_rest_isLoopEv (r : SensorReply) (a c : List Nat) (q1 q2 : List Ev)
    (hq1 : ∀ e ∈ q1, e.isQuiet = true) (hq2 : ∀ e ∈ q2, e.isQuiet = true) :
    ∀ e ∈ q1 ++ updEvs r a c ++ q2, e.isLoopEv = true := by
  intro e he
  rcases List.mem_append.mp he with he | he
  · rcases List.mem_append.mp he with he | he
    · exact quiet_isLoopEv e (hq1 e he)
    · exact updEvs_isLoopEv r a c e he
  · exact quiet_isLoopEv e (hq2 e he)

theorem loopShape_isLoopEv (rs : List SensorReply) (a c : List Nat) (evs : List (List Ev))
    (h : LoopShape false a c rs evs) : ∀ e ∈ evs.flatten, e.isLoopEv = true := by
  induction rs generalizing a c evs with
  | nil => simp [LoopShape] at h; simp [h]
  | cons r rs ih =>
    obtain ⟨ev, rest, rfl, ⟨q1, q2, hq1, hq2, rfl⟩, hl⟩ := h
    intro e he
    rw [List.flatten_cons] at he
    rcases List.mem_append.mp he with he | he
    · simp only [if_false, Bool.false_eq_true, List.nil_append, List.cons_append,
        List.mem_cons] at he
      rcases he with rfl | he
      · rfl
      · exact tick_rest_isLoopEv r a c q1 q2 hq1 hq2 e he
    · exact ih _ _ rest hl e he

theorem main_setup_split (boot : Boot) :
    (main_setup boot).2 = setupPre boot ++ [Ev.lv_timer_handler, Ev.display_blanking_off] ∧
    ∀ e ∈ setupPre boot, e ≠ Ev.lv_timer_handler ∧ e ≠ Ev.display_blanking_off ∧
      e ≠ Ev.lv_refr_now ∧ e ≠ Ev.call_read_dht11 := by
  rcases boot with ⟨_ | _, _ | _⟩ <;> decide

theorem main_milestones (boot : Boot) (r : SensorReply) (rs : List SensorReply) :
    ∃ rest, main boot (r :: rs) = some (setupPre boot ++
        ([Ev.lv_timer_handler, Ev.display_blanking_off, Ev.lv_timer_handler, Ev.lv_refr_now,
          Ev.call_read_dht11] ++ rest)) ∧
      ∀ e ∈ rest, e.isLoopEv = true := by
  obtain ⟨s, evs, _, hm, hs, _, _⟩ := main_eq boot (r :: rs)
  obtain ⟨ev, rest, rfl, ⟨q1, q2, hq1, hq2, rfl⟩, hl⟩ := hs
  refine ⟨(q1 ++ updEvs r [] [] ++ q2) ++ rest.flatten, ?_, ?_⟩
  · rw [hm, (main_setup_split boot).1]
    simp
  · intro e he
    rcases List.mem_append.mp he with he | he
    · exact tick_rest_isLoopEv r _ _ q1 q2 hq1 hq2 e he
    · exact loopShape_isLoopEv rs _ _ rest hl e he

theorem count_eq_zero_of_isLoopEv (l : List Ev) (h : ∀ e ∈ l, e.isLoopEv = true) (x : Ev)
    (hx : x.isLoopEv = false) : l.count x = 0 := by
  rw [List.count_eq_zero]
  intro hm
  have := h x hm
  rw [hx] at this
  exact Bool.noConfusion this

theorem count_eq_zero_of_ne (l : List Ev) (x : Ev) (h : ∀ e ∈ l, e ≠ x) : l.count x = 0 := by
  rw [List.count_eq_zero]
  intro hm
  exact h x hm rfl

/-- C5 (amended): in every run of `main` with at least one loop iteration,
whatever the sensor replies, `display_blanking_off` is called exactly once
and `lv_timer_handler` exactly twice (once just before the unblanking and once
in the `first_run` block of the first iteration), and all of these calls
come before the first `read_dht11` call. -/
theorem initial_draw_once (boot : Boot) (replies : List SensorReply) (h : replies ≠ []) :
    ∃ evs pre post, main boot replies = some evs ∧
      evs = pre ++ Ev.call_read_dht11 :: post ∧
      Ev.call_read_dht11 ∉ pre ∧
      pre.count Ev.lv_timer_handler = 2 ∧ pre.count Ev.display_blanking_off = 1 ∧
      evs.count Ev.lv_timer_handler = 2 ∧ evs.count Ev.display_blanking_off = 1 := by
  obtain ⟨r, rs, rfl⟩ := List.exists_cons_of_ne_nil h
  obtain ⟨rest, hm, hrest⟩ := main_milestones boot r rs
  obtain ⟨_, hpre⟩ := main_setup_split boot
  have c1 := count_eq_zero_of_ne (setupPre boot) Ev.lv_timer_handler (fun e he => (hpre e he).1)
  have c2 := count_eq_zero_of_ne (setupPre boot) Ev.display_blanking_off
    (fun e he => (hpre e he).2.1)
  have c3 := count_eq_zero_of_isLoopEv rest hrest Ev.lv_timer_handler rfl
  have c4 := count_eq_zero_of_isLoopEv rest hrest Ev.display_blanking_off rfl
  have k1 : [Ev.lv_timer_handler, Ev.display_blanking_off, Ev.lv_timer_handler,
      Ev.lv_refr_now].count Ev.lv_timer_handler = 2 := by decide
  have k2 : [Ev.lv_timer_handler, Ev.display_blanking_off, Ev.lv_timer_handler,
      Ev.lv_refr_now].count Ev.display_blanking_off = 1 := by decide
  have k3 : (Ev.call_read_dht11 :: rest).count Ev.lv_timer_handler = 0 := by
    rw [List.count_cons, c3]; rfl
  have k4 : (Ev.call_read_dht11 :: rest).count Ev.display_blanking_off = 0 := by
    rw [List.count_cons, c4]; rfl
  refine ⟨_, setupPre boot ++ [Ev.lv_timer_handler, Ev.display_blanking_off,
    Ev.lv_timer_handler, Ev.lv_refr_now], rest, hm, by simp, ?_, ?_, ?_, ?_, ?_⟩
  · intro hmem
    rcases List.mem_append.mp hmem with hmem | hmem
    · exact (hpre _ hmem).2.2.2 rfl
    · revert hmem; decide
  · rw [List.count_append, c1, k1]
  · rw [List.count_append, c2, k2]
  · rw [show setupPre boot ++ ([Ev.lv_timer_handler, Ev.display_blanking_off,
        Ev.lv_timer_handler, Ev.lv_refr_now, Ev.call_read_dht11] ++ rest) =
        setupPre boot ++ ([Ev.lv_timer_handler, Ev.display_blanking_off, Ev.lv_timer_handler,
          Ev.lv_refr_now] ++ Ev.call_read_dht11 :: rest) from by simp]
    rw [List.count_append, List.count_append, c1, k1, k3]
  · rw [show setupPre boot ++ ([Ev.lv_timer_handler, Ev.display_blanking_off,
        Ev.lv_timer_handler, Ev.lv_refr_now, Ev.call_read_dht11] ++ rest) =
        setupPre boot ++ ([Ev.lv_timer_handler, Ev.display_blanking_off, Ev.lv_timer_handler,
          Ev.lv_refr_now] ++ Ev.call_read_dht11 :: rest) from by simp]
    rw [List.count_append, List.count_append, c2, k2, k4]

theorem initial_draw_once_witness :
    [SensorReply.ok 20 45, SensorReply.fail] ≠ [] ∧
    ∃ evs pre post, main { epaper_ready := true, dht_ready := true }
        [SensorReply.ok 20 45, SensorReply.fail] = some evs ∧
      evs = pre ++ Ev.call_read_dht11 :: post ∧
      Ev.call_read_dht11 ∉ pre ∧
      pre.count Ev.lv_timer_handler = 2 ∧ pre.count Ev.display_blanking_off = 1 ∧
      evs.count Ev.lv_timer_handler = 2 ∧ evs.count Ev.display_blanking_off = 1 :=
  ⟨by decide, initial_draw_once { epaper_ready := true, dht_ready := true }
    [SensorReply.ok 20 45, SensorReply.fail] (by decide)⟩

/-- C5 as stated fails: in a run with one iteration, `lv_timer_handler` is
called twice, not once. -/
theorem initial_draw_once_counterexample :
    (main { epaper_ready := true, dht_ready := true } [SensorReply.fail]).map
      (fun evs => evs.count Ev.lv_timer_handler) = some 2 := by
  decide

/-- C6 (amended): in every run of `main` with at least one loop iteration,
exactly one `lv_timer_handler` call comes before `display_blanking_off` and no
`lv_refr_now` and no `read_dht11` call does; the `lv_timer_handler` and the
forced refresh `lv_refr_now` of the `first_run` block come right after
`display_blanking_off`, and the first `read_dht11` call comes right after
them. -/
theorem initial_draw_order (boot : Boot) (replies : List SensorReply) (h : replies ≠ []) :
    ∃ pre rest, main boot replies =
        some (pre ++ Ev.display_blanking_off :: Ev.lv_timer_handler :: Ev.lv_refr_now ::
          Ev.call_read_dht11 :: rest) ∧
      pre.count Ev.lv_timer_handler = 1 ∧
      Ev.lv_refr_now ∉ pre ∧ Ev.display_blanking_off ∉ pre ∧
      Ev.call_read_dht11 ∉ pre ∧
      Ev.display_blanking_off ∉ rest := by
  obtain ⟨r, rs, rfl⟩ := List.exists_cons_of_ne_nil h
  obtain ⟨rest, hm, hrest⟩ := main_milestones boot r rs
  obtain ⟨_, hpre⟩ := main_setup_split boot
  have c1 := count_eq_zero_of_ne (setupPre boot) Ev.lv_timer_handler (fun e he => (hpre e he).1)
  refine ⟨setupPre boot ++ [Ev.lv_timer_handler], rest, by rw [hm]; simp, ?_, ?_, ?_, ?_, ?_⟩
  · rw [List.count_append, c1]; rfl
  · intro hmem
    rcases List.mem_append.mp hmem with hmem | hmem
    · exact (hpre _ hmem).2.2.1 rfl
    · revert hmem; decide
  · intro hmem
    rcases List.mem_append.mp hmem with hmem | hmem
    · exact (hpre _ hmem).2.1 rfl
    · revert hmem; decide
  · intro hmem
    rcases List.mem_append.mp hmem with hmem | hmem
    · exact (hpre _ hmem).2.2.2 rfl
    · revert hmem; decide
  · intro hmem
    have := hrest _ hmem
    exact Bool.noConfusion this

theorem initial_draw_order_witness :
    [SensorReply.ok 20 45] ≠ [] ∧
    ∃ pre rest, main { epaper_ready := true, dht_ready := true } [SensorReply.ok 20 45] =
        some (pre ++ Ev.display_blanking_off :: Ev.lv_timer_handler :: Ev.lv_refr_now ::
          Ev.call_read_dht11 :: rest) ∧
      pre.count Ev.lv_timer_handler = 1 ∧
      Ev.lv_refr_now ∉ pre ∧ Ev.display_blanking_off ∉ pre ∧
      Ev.call_read_dht11 ∉ pre ∧
      Ev.display_blanking_off ∉ rest :=
  ⟨by decide, initial_draw_order { epaper_ready := true, dht_ready := true }
    [SensorReply.ok 20 45] (by decide)⟩

/-- C6 as stated fails: in a run with one iteration the first `lv_refr_now`
comes after `display_blanking_off`, not before it. -/
theorem initial_draw_order_counterexample :
    (main { epaper_ready := true, dht_ready := true } [SensorReply.fail]).map
      (fun evs => (decide (Ev.lv_refr_now ∈ evs),
        decide (evs.indexOf Ev.display_blanking_off < evs.indexOf Ev.lv_refr_now))) =
      some (true, true) := by
  decide

/-! ## What the labels show during a run -/

theorem update_label_screen (label : Obj) (old new : List Nat) (scr : Obj → Widget) :
    screenAfter scr (update_label label old new) =
      fun o => if o = label then { text := new, color := Color.black } else scr o := by
  funext o
  cases old with
  | nil => by_cases h : o = label <;> simp [update_label, strlen, screenAfter, applyEv, h]
  | cons x xs => by_cases h : o = label <;> simp [update_label, strlen, screenAfter, applyEv, h]

theorem fieldEvs_screen (label : Obj) (a b : List Nat) (scr : Obj → Widget) :
    screenAfter scr (fieldEvs label a b) =
      if a = b then scr
      else fun o => if o = label then { text := b, color := Color.black } else scr o := by
  unfold fieldEvs
  split
  · rfl
  · exact update_label_screen label a b scr

theorem updEvs_screen (r : SensorReply) (a c : List Nat) (scr : Obj → Widget) :
    screenAfter scr (updEvs r a c) =
      if r.succeeds then
        screenAfter (screenAfter scr (fieldEvs temp_num_text_label a (tempText r.temp_val1)))
          (fieldEvs humidity_num_text_label c (humidText r.humid_val1))
      else scr := by
  unfold updEvs
  split
  · rw [← screenAfter_append]; rfl
  · rfl

theorem tickShape_screen (first : Bool) (r : SensorReply) (a c : List Nat) (ev : List Ev)
    (h : TickShape first r a c ev) (scr : Obj → Widget) :
    screenAfter scr ev = screenAfter scr (updEvs r a c) := by
  obtain ⟨q1, q2, hq1, hq2, rfl⟩ := h
  have hfd : screenAfter scr (if first then [Ev.lv_timer_handler, Ev.lv_refr_now] else []) = scr := by
    cases first <;> rfl
  rw [screenAfter_append, hfd, List.cons_append, List.cons_append]
  rw [show screenAfter scr (Ev.call_read_dht11 :: (q1 ++ updEvs r a c ++ q2)) =
    screenAfter scr (q1 ++ updEvs r a c ++ q2) from rfl]
  rw [screenAfter_append, screenAfter_append, quiet_screenAfter scr q1 hq1,
    quiet_screenAfter _ q2 hq2]

theorem tickShape_shown (first : Bool) (r : SensorReply) (a c : List Nat) (ev : List Ev)
    (h : TickShape first r a c ev) (scr : Obj → Widget) (hs : Shown scr a c) :
    Shown (screenAfter scr ev) (nextTemp a r) (nextHumid c r) := by
  rw [tickShape_screen first r a c ev h scr, updEvs_screen]
  have hne := labels_ne
  cases hr : r.succeeds with
  | false => simpa [nextTemp, nextHumid, hr] using hs
  | true =>
    simp only [nextTemp, nextHumid, hr, if_true, fieldEvs_screen]
    obtain ⟨h1, h2⟩ := hs
    constructor
    · intro _
      by_cases hab : a = tempText r.temp_val1 <;>
        by_cases hcd : c = humidText r.humid_val1 <;> simp [hab, hcd, hne]
      · rw [← hab]; exact h1 (by rw [hab]; exact tempText_ne_nil _)
      · rw [← hab]; exact h1 (by rw [hab]; exact tempText_ne_nil _)
    · intro _
      by_cases hab : a = tempText r.temp_val1 <;>
        by_cases hcd : c = humidText r.humid_val1 <;> simp [hab, hcd, hne.symm]
      · rw [← hcd]; exact h2 (by rw [hcd]; exact humidText_ne_nil _)
      · rw [← hcd]; exact h2 (by rw [hcd]; exact humidText_ne_nil _)

theorem loopShape_shown (rs : List SensorReply) (first : Bool) (a c : List Nat)
    (evs : List (List Ev)) (h : LoopShape first a c rs evs) (scr : Obj → Widget)
    (hs : Shown scr a c) :
    Shown (screenAfter scr evs.flatten) (rs.foldl nextTemp a) (rs.foldl nextHumid c) := by
  induction rs generalizing first a c evs scr with
  | nil => simp [LoopShape] at h; subst h; exact hs
  | cons r rs ih =>
    obtain ⟨ev, rest, rfl, ht, hl⟩ := h
    rw [List.flatten_cons, screenAfter_append]
    exact ih false _ _ rest hl _ (tickShape_shown first r a c ev ht scr hs)

/-- C10: for 32-bit readings `t` and `h` the formatted texts are at most 13
bytes long, the longest being the one of `INT_MIN`; `snprintf` with the
32-byte buffer leaves them whole, `strncpy` with 32 bytes copies them whole
with a terminator; and after any run of `main` whose last iteration reads
`t` and `h` successfully each cache holds the formatted text of its field,
which is also the text its label shows, in black. -/
theorem cache_capacity (t h : Int) (ht : IsInt32 t) (hh : IsInt32 h) :
    (vformat (bytes "%d C") [t]).length ≤ 13 ∧
    (vformat (bytes "%d %%") [h]).length ≤ 13 ∧
    vformat (bytes "%d C") [INT_MIN] = bytes "-2147483648 C" ∧
    (bytes "-2147483648 C").length = 13 ∧
    temp_str t = some (vformat (bytes "%d C") [t]) ∧
    humid_str h = some (vformat (bytes "%d %%") [h]) ∧
    (∀ dst, readCStr (strncpy dst (vformat (bytes "%d C") [t]) 32) =
      some (vformat (bytes "%d C") [t])) ∧
    (∀ dst, readCStr (strncpy dst (vformat (bytes "%d %%") [h]) 32) =
      some (vformat (bytes "%d %%") [h])) ∧
    (∀ (boot : Boot) (earlier : List SensorReply) (scr0 : Obj → Widget),
      ∃ s evs, loop (main_setup boot).1 (earlier ++ [SensorReply.ok t h]) = some (s, evs) ∧
        readCStr s.prev_temp = some (vformat (bytes "%d C") [t]) ∧
        readCStr s.prev_humid = some (vformat (bytes "%d %%") [h]) ∧
        screenAfter scr0 ((main_setup boot).2 ++ evs.flatten) temp_num_text_label =
          { text := vformat (bytes "%d C") [t], color := Color.black } ∧
        screenAfter scr0 ((main_setup boot).2 ++ evs.flatten) humidity_num_text_label =
          { text := vformat (bytes "%d %%") [h], color := Color.black }) := by
  have l1 := fmt_d_length_le t ht
  have l2 := fmt_d_length_le h hh
  have e1 : tempText t = vformat (bytes "%d C") [t] := by
    rw [vformat_temp]; exact tempText_inRange t ht
  have e2 : humidText h = vformat (bytes "%d %%") [h] := by
    rw [vformat_humid]; exact humidText_inRange h hh
  have hok : (SensorReply.ok t h).succeeds = true := by
    simp [SensorReply.succeeds, SensorReply.ok]
  refine ⟨?_, ?_, by decide, by decide, ?_, ?_, ?_, ?_, ?_⟩
  · rw [vformat_temp, bytes_C]; simp; omega
  · rw [vformat_humid, bytes_pct]; simp; omega
  · rw [temp_str_eq, e1]
  · rw [humid_str_eq, e2]
  · intro dst
    rw [← e1]
    exact readCStr_strncpy dst _ (tempText_noNul t) (tempText_length t)
  · intro dst
    rw [← e2]
    exact readCStr_strncpy dst _ (humidText_noNul h) (humidText_length h)
  · intro boot earlier scr0
    obtain ⟨s, evs, hl, _, hs, h4, h5⟩ := main_eq boot (earlier ++ [SensorReply.ok t h])
    have hsh := loopShape_shown _ true [] [] evs hs (screenAfter scr0 (main_setup boot).2)
      ⟨fun hn => absurd rfl hn, fun hn => absurd rfl hn⟩
    have f1 : (earlier ++ [SensorReply.ok t h]).foldl nextTemp [] = tempText t := by
      rw [List.foldl_append, List.foldl_cons, List.foldl_nil, nextTemp, if_pos hok]
      rfl
    have f2 : (earlier ++ [SensorReply.ok t h]).foldl nextHumid [] = humidText h := by
      rw [List.foldl_append, List.foldl_cons, List.foldl_nil, nextHumid, if_pos hok]
      rfl
    rw [f1] at h4
    rw [f2] at h5
    rw [f1, f2] at hsh
    rw [← e1, ← e2]
    refine ⟨s, evs, hl, h4, h5, ?_, ?_⟩
    · rw [screenAfter_append]; exact hsh.1 (tempText_ne_nil t)
    · rw [screenAfter_append]; exact hsh.2 (humidText_ne_nil h)

theorem cache_capacity_witness :
    IsInt32 INT_MIN ∧ IsInt32 100 ∧
    (vformat (bytes "%d C") [INT_MIN]).length ≤ 13 ∧
    temp_str INT_MIN = some (bytes "-2147483648 C") ∧
    humid_str 100 = some (bytes "100 %") ∧
    readCStr (strncpy State.init.prev_temp (vformat (bytes "%d C") [INT_MIN]) 32) =
      some (bytes "-2147483648 C") := by
  obtain ⟨h1, _, h3, _, h5, h6, h7, _⟩ := cache_capacity INT_MIN 100 (by decide) (by decide)
  refine ⟨by decide, by decide, h1, ?_, ?_, ?_⟩
  · rw [h5, h3]
  · rw [h6]; rfl
  · rw [h7, h3]

/-! ## The placeholder is never painted in the background colour -/

theorem inert_applyEv (scr : Obj → Widget) (e : Ev) (h : e.isInert = true) :
    applyEv scr e = scr := by
  cases e <;> first | rfl | exact Bool.noConfusion h

theorem quiet_isInert (e : Ev) (h : e.isQuiet = true) : e.isInert = true := by
  cases e <;> first | rfl | exact Bool.noConfusion h

theorem safeTrace_head (scr : Obj → Widget) (es : List Ev) (h : SafeTrace scr es) :
    NoGhost00 scr := by
  cases es with
  | nil => exact h
  | cons e es => exact h.1

theorem safeTrace_append (scr : Obj → Widget) (xs ys : List Ev) :
    SafeTrace scr (xs ++ ys) ↔ SafeTrace scr xs ∧ SafeTrace (screenAfter scr xs) ys := by
  induction xs generalizing scr with
  | nil =>
    exact ⟨fun h => ⟨safeTrace_head scr ys h, h⟩, fun h => h.2⟩
  | cons e es ih =>
    show (NoGhost00 scr ∧ SafeTrace (applyEv scr e) (es ++ ys)) ↔
      (NoGhost00 scr ∧ SafeTrace (applyEv scr e) es) ∧
        SafeTrace (screenAfter (applyEv scr e) es) ys
    rw [ih (applyEv scr e)]
    exact ⟨fun h => ⟨⟨h.1, h.2.1⟩, h.2.2⟩, fun h => ⟨h.1.1, h.1.2, h.2⟩⟩

theorem safeTrace_prefix (scr : Obj → Widget) (pre suf : List Ev)
    (h : SafeTrace scr (pre ++ suf)) : NoGhost00 (screenAfter scr pre) :=
  safeTrace_head _ suf ((safeTrace_append scr pre suf).mp h).2

theorem safeTrace_inert (scr : Obj → Widget) (es : List Ev) (h0 : NoGhost00 scr)
    (h : ∀ e ∈ es, e.isInert = true) : SafeTrace scr es := by
  induction es with
  | nil => exact h0
  | cons e es ih =>
    refine ⟨h0, ?_⟩
    rw [inert_applyEv scr e (h e (by simp))]
    exact ih (fun x hx => h x (by simp [hx]))

theorem step_text (scr : Obj → Widget) (o : Obj) (t : List Nat) (h : NoGhost00 scr)
    (ht : t ≠ bytes "00" ∨ (scr o).color = Color.black) :
    NoGhost00 (applyEv scr (Ev.lv_label_set_text o t)) := by
  intro x hx
  simp only [applyEv] at hx
  by_cases hxo : x = o
  · subst hxo
    simp only [if_true] at hx
    rcases ht with ht | ht
    · exact ht hx.1
    · rw [ht] at hx; exact Color.noConfusion hx.2
  · simp only [hxo, if_false] at hx
    exact h x hx

theorem step_color (scr : Obj → Widget) (o : Obj) (c : Color) (h : NoGhost00 scr)
    (hc : c = Color.black ∨ (scr o).text ≠ bytes "00") :
    NoGhost00 (applyEv scr (Ev.lv_obj_set_style_text_color o c)) := by
  intro x hx
  simp only [applyEv] at hx
  by_cases hxo : x = o
  · subst hxo
    simp only [if_true] at hx
    rcases hc with hc | hc
    · rw [hc] at hx; exact Color.noConfusion hx.2
    · exact hc hx.1
  · simp only [hxo, if_false] at hx
    exact h x hx

theorem safeTrace_update_label (scr : Obj → Widget) (label : Obj) (old new : List Nat)
    (h : NoGhost00 scr) (ho : old ≠ bytes "00") (hn : new ≠ bytes "00") :
    SafeTrace scr (update_label label old new) := by
  have draw : ∀ s : Obj → Widget, NoGhost00 s →
      SafeTrace s [Ev.lv_label_set_text label new,
        Ev.lv_obj_set_style_text_color label Color.black,
        Ev.lv_obj_invalidate label, Ev.lv_refr_now] := by
    intro s hs
    have h1 := step_text s label new hs (Or.inl hn)
    have h2 := step_color _ label Color.black h1 (Or.inl rfl)
    exact ⟨hs, h1, h2, h2, h2⟩
  cases old with
  | nil => exact draw scr h
  | cons x xs =>
    have h1 := step_text scr label (x :: xs) h (Or.inl ho)
    have h2 := step_color _ label Color.white h1 (Or.inr (by simpa [applyEv] using ho))
    have hd := draw _ h2
    have hs : strlen (x :: xs) > 0 := by simp [strlen]
    unfold update_label
    rw [if_pos hs]
    exact ⟨h, h1, h2, h2, hd⟩

theorem safeTrace_fieldEvs (scr : Obj → Widget) (label : Obj) (a b : List Nat)
    (h : NoGhost00 scr) (ha : a ≠ bytes "00") (hb : b ≠ bytes "00") :
    SafeTrace scr (fieldEvs label a b) := by
  unfold fieldEvs
  split
  · exact h
  · exact ⟨h, safeTrace_update_label scr label a b h ha hb⟩

theorem safeTrace_final (scr : Obj → Widget) (es : List Ev) (h : SafeTrace scr es) :
    NoGhost00 (screenAfter scr es) :=
  safeTrace_prefix scr es [] (by simpa using h)

theorem safeTrace_updEvs (scr : Obj → Widget) (r : SensorReply) (a c : List Nat)
    (h : NoGhost00 scr) (ha : a ≠ bytes "00") (hc : c ≠ bytes "00") :
    SafeTrace scr (updEvs r a c) := by
  unfold updEvs
  split
  · refine ⟨h, ?_⟩
    rw [safeTrace_append]
    have h1 := safeTrace_fieldEvs scr temp_num_text_label a _ h ha (tempText_ne_00 r.temp_val1)
    exact ⟨h1, safeTrace_fieldEvs _ humidity_num_text_label c _ (safeTrace_final _ _ h1) hc
      (humidText_ne_00 r.humid_val1)⟩
  · exact h

theorem safeTrace_tick (first : Bool) (r : SensorReply) (a c : List Nat) (ev : List Ev)
    (ht : TickShape first r a c ev) (scr : Obj → Widget)
    (h : NoGhost00 scr) (ha : a ≠ bytes "00") (hc : c ≠ bytes "00") :
    SafeTrace scr ev := by
  obtain ⟨q1, q2, hq1, hq2, rfl⟩ := ht
  have hfd : ∀ e ∈ (if first then [Ev.lv_timer_handler, Ev.lv_refr_now] else []) ++
      Ev.call_read_dht11 :: q1, e.isInert = true := by
    intro e he
    rcases List.mem_append.mp he with he | he
    · cases first
      · simp at he
      · simp at he; rcases he with rfl | rfl <;> rfl
    · rcases List.mem_cons.mp he with rfl | he
      · rfl
      · exact quiet_isInert e (hq1 e he)
  have hi2 : ∀ e ∈ q2, e.isInert = true := fun e he => quiet_isInert e (hq2 e he)
  have e0 : (if first then [Ev.lv_timer_handler, Ev.lv_refr_now] else []) ++
      (Ev.call_read_dht11 :: q1 ++ updEvs r a c ++ q2) =
      ((if first then [Ev.lv_timer_handler, Ev.lv_refr_now] else []) ++
        Ev.call_read_dht11 :: q1) ++ (updEvs r a c ++ q2) := by simp
  rw [e0]
  have h1 := safeTrace_inert scr _ h hfd
  have h2 := safeTrace_updEvs _ r a c (safeTrace_final _ _ h1) ha hc
  exact (safeTrace_append _ _ _).mpr ⟨h1, (safeTrace_append _ _ _).mpr
    ⟨h2, safeTrace_inert _ q2 (safeTrace_final _ _ h2) hi2⟩⟩

theorem nextTemp_ne_00 (a : List Nat) (r : SensorReply) (ha : a ≠ bytes "00") :
    nextTemp a r ≠ bytes "00" := by
  unfold nextTemp
  split
  · exact tempText_ne_00 _
  · exact ha

theorem nextHumid_ne_00 (c : List Nat) (r : SensorReply) (hc : c ≠ bytes "00") :
    nextHumid c r ≠ bytes "00" := by
  unfold nextHumid
  split
  · exact humidText_ne_00 _
  · exact hc

theorem safeTrace_loop (rs : List SensorReply) (first : Bool) (a c : List Nat)
    (evs : List (List Ev)) (hl : LoopShape first a c rs evs) (scr : Obj → Widget)
    (h : NoGhost00 scr) (ha : a ≠ bytes "00") (hc : c ≠ bytes "00") :
    SafeTrace scr evs.flatten := by
  induction rs generalizing first a c evs scr with
  | nil => simp [LoopShape] at hl; subst hl; exact h
  | cons r rs ih =>
    obtain ⟨ev, rest, rfl, ht, hl⟩ := hl
    rw [List.flatten_cons, safeTrace_append]
    have h1 := safeTrace_tick first r a c ev ht scr h ha hc
    exact ⟨h1, ih false _ _ rest hl _ (safeTrace_final _ _ h1) (nextTemp_ne_00 a r ha)
      (nextHumid_ne_00 c r hc)⟩

theorem blackOnlyCheck_sound (es : List Ev) (known : List Obj) (scr : Obj → Widget)
    (hc : blackOnlyCheck known es = true) (h : NoGhost00 scr)
    (hk : ∀ o ∈ known, (scr o).color = Color.black) : SafeTrace scr es := by
  induction es generalizing known scr with
  | nil => exact h
  | cons e es ih =>
    refine ⟨h, ?_⟩
    cases e with
    | lv_obj_set_style_text_color o c =>
      simp only [blackOnlyCheck, Bool.and_eq_true, decide_eq_true_eq] at hc
      refine ih (o :: known) _ hc.2 (step_color scr o c h (Or.inl hc.1)) ?_
      intro x hx
      simp only [applyEv]
      by_cases hxo : x = o
      · simp [hxo, hc.1]
      · simp only [hxo, if_false]
        exact hk x (by simpa [hxo] using hx)
    | lv_label_set_text o t =>
      simp only [blackOnlyCheck, Bool.and_eq_true, Bool.or_eq_true, decide_eq_true_eq] at hc
      refine ih known _ hc.2 (step_text scr o t h ?_) ?_
      · rcases hc.1 with h1 | h1
        · exact Or.inl h1
        · exact Or.inr (hk o h1)
      · intro x hx
        simp only [applyEv]
        by_cases hxo : x = o
        · simp only [hxo, if_true]
          exact hk o (hxo ▸ hx)
        · simp only [hxo, if_false]
          exact hk x hx
    | _ => exact ih known scr hc h hk

theorem main_setup_safe (boot : Boot) (scr : Obj → Widget) (h : NoGhost00 scr) :
    SafeTrace scr (main_setup boot).2 := by
  refine blackOnlyCheck_sound _ [] scr ?_ h (fun o ho => by simp at ho)
  rcases boot with ⟨_ | _, _ | _⟩ <;> decide

theorem main_setup_redraws (boot : Boot) :
    redraws temp_num_text_label (main_setup boot).2 = [] ∧
    redraws humidity_num_text_label (main_setup boot).2 = [] := by
  rcases boot with ⟨_ | _, _ | _⟩ <;> decide

theorem main_setup_screen (boot : Boot) (scr : Obj → Widget) :
    screenAfter scr (main_setup boot).2 temp_num_text_label =
      { text := bytes "00", color := Color.black } ∧
    screenAfter scr (main_setup boot).2 humidity_num_text_label =
      { text := bytes "00", color := Color.black } := by
  rcases boot with ⟨_ | _, _ | _⟩ <;> exact ⟨rfl, rfl⟩

theorem first_redraw_temp (rs : List SensorReply) (first : Bool) (c : List Nat)
    (evs : List (List Ev)) (hl : LoopShape first [] c rs evs) :
    ∀ p ∈ (redraws temp_num_text_label evs.flatten).head?, p.1 = [] := by
  induction rs generalizing first c evs with
  | nil => simp [LoopShape] at hl; subst hl; simp [redraws]
  | cons r rs ih =>
    obtain ⟨ev, rest, rfl, ht, hl⟩ := hl
    rw [List.flatten_cons, redraws_append, (tickShape_redraws first r [] c ev ht).1]
    cases hr : r.succeeds with
    | false =>
      have hn : nextTemp [] r = [] := by simp [nextTemp, hr]
      rw [hn] at hl
      simpa using ih false _ rest hl
    | true =>
      rw [if_pos ⟨rfl, (tempText_ne_nil _).symm⟩]
      intro p hp
      simp at hp
      rw [← hp]

theorem first_redraw_humid (rs : List SensorReply) (first : Bool) (a : List Nat)
    (evs : List (List Ev)) (hl : LoopShape first a [] rs evs) :
    ∀ p ∈ (redraws humidity_num_text_label evs.flatten).head?, p.1 = [] := by
  induction rs generalizing first a evs with
  | nil => simp [LoopShape] at hl; subst hl; simp [redraws]
  | cons r rs ih =>
    obtain ⟨ev, rest, rfl, ht, hl⟩ := hl
    rw [List.flatten_cons, redraws_append, (tickShape_redraws first r a [] ev ht).2]
    cases hr : r.succeeds with
    | false =>
      have hn : nextHumid [] r = [] := by simp [nextHumid, hr]
      rw [hn] at hl
      simpa using ih false _ rest hl
    | true =>
      rw [if_pos ⟨rfl, (humidText_ne_nil _).symm⟩]
      intro p hp
      simp at hp
      rw [← hp]

/-- C9: when the loop starts both dynamic labels show the placeholder `00`
and both caches hold the empty string; in every run of `main` the first
`update_label` call made for each dynamic label has an empty `prev_text`, and
such a call is the draw phase alone (paint in black, mark dirty, one forced
refresh); and, provided no label has the text `00` in white before `main`
starts, after every prefix of the trace no label has the text `00` in
white. -/
theorem placeholder_never_cleared (boot : Boot) (replies : List SensorReply)
    (scr0 : Obj → Widget) (h0 : NoGhost00 scr0) :
    (screenAfter scr0 (main_setup boot).2 temp_num_text_label).text = bytes "00" ∧
    (screenAfter scr0 (main_setup boot).2 humidity_num_text_label).text = bytes "00" ∧
    readCStr (main_setup boot).1.prev_temp = some [] ∧
    readCStr (main_setup boot).1.prev_humid = some [] ∧
    ∃ evs, main boot replies = some evs ∧
      (∀ p ∈ (redraws temp_num_text_label evs).head?, p.1 = []) ∧
      (∀ p ∈ (redraws humidity_num_text_label evs).head?, p.1 = []) ∧
      (∀ label new, update_label label [] new = spec_paint_phase label new Color.black) ∧
      (∀ pre suf, evs = pre ++ suf → NoGhost00 (screenAfter scr0 pre)) := by
  obtain ⟨s1, s2⟩ := main_setup_screen boot scr0
  obtain ⟨c1, c2, _⟩ := main_setup_state boot
  obtain ⟨s, evs, _, hm, hs, _, _⟩ := main_eq boot replies
  obtain ⟨r1, r2⟩ := main_setup_redraws boot
  refine ⟨by rw [s1], by rw [s2], c1, c2, _, hm, ?_, ?_, fun _ _ => rfl, ?_⟩
  · rw [redraws_append, r1, List.nil_append]
    exact first_redraw_temp replies true [] evs hs
  · rw [redraws_append, r2, List.nil_append]
    exact first_redraw_humid replies true [] evs hs
  · intro pre suf he
    have hsafe : SafeTrace scr0 ((main_setup boot).2 ++ evs.flatten) := by
      have h1 := main_setup_safe boot scr0 h0
      exact (safeTrace_append _ _ _).mpr ⟨h1, safeTrace_loop replies true [] [] evs hs _
        (safeTrace_final _ _ h1) (by decide) (by decide)⟩
    rw [he] at hsafe
    exact safeTrace_prefix scr0 pre suf hsafe

theorem placeholder_never_cleared_witness :
    NoGhost00 (fun _ => { text := [], color := Color.white }) ∧
    ∃ evs, main { epaper_ready := true, dht_ready := true } scenario_failure = some evs ∧
      (∀ p ∈ (redraws temp_num_text_label evs).head?, p.1 = []) ∧
      (∀ p ∈ (redraws humidity_num_text_label evs).head?, p.1 = []) ∧
      (∀ pre suf, evs = pre ++ suf →
        NoGhost00 (screenAfter (fun _ => { text := [], color := Color.white }) pre)) := by
  have h0 : NoGhost00 (fun _ => { text := [], color := Color.white }) := by
    have hne : ([] : List Nat) ≠ bytes "00" := by decide
    exact fun _ h => hne h.1
  obtain ⟨_, _, _, _, evs, h1, h2, h3, _, h5⟩ :=
    placeholder_never_cleared { epaper_ready := true, dht_ready := true } scenario_failure
      (fun _ => { text := [], color := Color.white }) h0
  exact ⟨h0, evs, h1, h2, h3, h5⟩

end DhtEpaper
